import Mathlib

/-!
A shallow embedding of the PyIRCBot session engine (src/pyircbot.py and
src/config.py): byte-stream line framing, message parsing, command
dispatch, statistics bookkeeping and the main receive loop, together with
theorems checking the specification against these definitions.
-/

namespace PyIRC

/-- Character lists stand for Python strings inside the parsing helpers. -/
abbrev Str := List Char

/-- The characters of a string literal. -/
def str (s : String) : Str := s.data

/-- A string rebuilt from its characters. -/
def ofChars (l : Str) : String := String.mk l

/-- Python `buffer.split('\r\n')` (src/pyircbot.py line 772): greedy
left-to-right split on the two-character line terminator; always returns
at least one piece. -/
def splitCRLF : Str → List Str
  | [] => [[]]
  | '\r' :: '\n' :: rest => [] :: splitCRLF rest
  | c :: rest =>
    match splitCRLF rest with
    | [] => [[c]]
    | l :: ls => (c :: l) :: ls

/-- Whether the two-character terminator occurs in a character list: the
framing buffer never contains it. -/
def hasCRLF : Str → Bool
  | [] => false
  | '\r' :: '\n' :: _ => true
  | _ :: t => hasCRLF t

/-- Lines 771-773 of src/pyircbot.py: the completed lines of the buffer
together with the trailing incomplete piece that stays in the buffer
(`lines = buffer.split('\r\n'); buffer = lines.pop()`). -/
def frame (s : Str) : List Str × Str :=
  ((splitCRLF s).dropLast, (splitCRLF s).getLastD [])

/-- The receive loop's framing across several reads: each chunk is appended
to the carried buffer and the completed lines are emitted in order. -/
def feedAll (buf : Str) : List Str → List Str × Str
  | [] => ([], buf)
  | d :: rest =>
    let p := frame (buf ++ d)
    let q := feedAll p.2 rest
    (p.1 ++ q.1, q.2)

theorem splitCRLF_ne_nil (s : Str) : splitCRLF s ≠ [] := by
  induction s using splitCRLF.induct with
  | case1 => simp [splitCRLF]
  | case2 rest ih => simp [splitCRLF]
  | case3 c rest h hnil ih => exact absurd hnil ih
  | case4 c rest h l ls hsplit ih =>
    rw [splitCRLF.eq_3 c rest h, hsplit]
    simp

theorem splitCRLF_singleton (s t : Str) (h : splitCRLF s = [t]) : t = s := by
  induction s using splitCRLF.induct generalizing t with
  | case1 =>
    simp [splitCRLF] at h
    rw [h]
  | case2 rest ih =>
    rw [splitCRLF.eq_2] at h
    exact absurd (List.cons.inj h).2 (splitCRLF_ne_nil rest)
  | case3 c rest hg hnil ih => exact absurd hnil (splitCRLF_ne_nil rest)
  | case4 c rest hg l ls hsplit ih =>
    rw [splitCRLF.eq_3 c rest hg, hsplit] at h
    have h1 := List.cons.inj h
    have hl : l = rest := ih l (by rw [hsplit, h1.2])
    rw [← h1.1, hl]

theorem getLastD_irrel {α : Type} (l : List α) (d d' : α) (h : l ≠ []) :
    l.getLastD d = l.getLastD d' := by
  cases l with
  | nil => exact absurd rfl h
  | cons a t => simp [List.getLastD_cons, List.getLast?_cons]

theorem getLastD_cons_ne {α : Type} (a d : α) (l : List α) (h : l ≠ []) :
    (a :: l).getLastD d = l.getLastD d := by
  rw [List.getLastD_cons]
  exact getLastD_irrel l a d h

theorem dropLast_cons_ne {α : Type} (a : α) (l : List α) (h : l ≠ []) :
    (a :: l).dropLast = a :: l.dropLast := by
  cases l with
  | nil => exact absurd rfl h
  | cons b t => rfl

/-- The central framing identity: splitting a concatenation is splitting the
first part, then splitting its unfinished tail glued to the second part. -/
theorem splitCRLF_append (x y : Str) :
    splitCRLF (x ++ y) =
      (splitCRLF x).dropLast ++ splitCRLF ((splitCRLF x).getLastD [] ++ y) := by
  induction x using splitCRLF.induct with
  | case1 => simp [splitCRLF]
  | case2 rest ih =>
    have hne := splitCRLF_ne_nil rest
    rw [List.cons_append, List.cons_append, splitCRLF.eq_2, splitCRLF.eq_2, ih,
      dropLast_cons_ne _ _ hne, getLastD_cons_ne _ _ _ hne]
    simp
  | case3 c rest h hnil ih => exact absurd hnil (splitCRLF_ne_nil rest)
  | case4 c rest h l ls hsplit ih =>
    cases ls with
    | nil =>
      have hl : l = rest := splitCRLF_singleton rest l hsplit
      have hx : splitCRLF (c :: rest) = [c :: l] := by
        rw [splitCRLF.eq_3 c rest h, hsplit]
      rw [hx]
      subst hl
      simp
    | cons ls0 ls' =>
      have hrest : rest ≠ [] := by
        intro hr
        rw [hr] at hsplit
        simp [splitCRLF] at hsplit
      have hguard : ∀ rest_1 : List Char, c = '\r' → rest ++ y = '\n' :: rest_1 → False := by
        intro r1 hc hry
        cases rest with
        | nil => exact absurd rfl hrest
        | cons r0 rt =>
          rw [List.cons_append] at hry
          exact h rt hc (by rw [(List.cons.inj hry).1])
      have hx : splitCRLF (c :: rest) = (c :: l) :: ls0 :: ls' := by
        rw [splitCRLF.eq_3 c rest h, hsplit]
      have hry : splitCRLF (rest ++ y) =
          l :: ((ls0 :: ls').dropLast ++ splitCRLF ((ls0 :: ls').getLastD [] ++ y)) := by
        rw [ih, hsplit, dropLast_cons_ne l _ (List.cons_ne_nil ls0 ls'),
          getLastD_cons_ne l _ _ (List.cons_ne_nil ls0 ls'), List.cons_append]
      rw [List.cons_append, splitCRLF.eq_3 c (rest ++ y) hguard, hry, hx,
        dropLast_cons_ne (c :: l) _ (List.cons_ne_nil ls0 ls'),
        getLastD_cons_ne (c :: l) _ _ (List.cons_ne_nil ls0 ls'), List.cons_append]

theorem splitCRLF_of_noCRLF (s : Str) (h : hasCRLF s = false) : splitCRLF s = [s] := by
  induction s using splitCRLF.induct with
  | case1 => rfl
  | case2 rest ih => simp [hasCRLF] at h
  | case3 c rest hg hnil ih => exact absurd hnil (splitCRLF_ne_nil rest)
  | case4 c rest hg l ls hsplit ih =>
    have h' : hasCRLF rest = false := by
      rw [hasCRLF.eq_3 c rest hg] at h
      exact h
    have h3 := List.cons.inj (hsplit.symm.trans (ih h'))
    rw [splitCRLF.eq_3 c rest hg, hsplit, h3.1, h3.2]

theorem noCRLF_splitLast (s : Str) : hasCRLF ((splitCRLF s).getLastD []) = false := by
  induction s using splitCRLF.induct with
  | case1 => rfl
  | case2 rest ih =>
    rw [splitCRLF.eq_2, getLastD_cons_ne _ _ _ (splitCRLF_ne_nil rest)]
    exact ih
  | case3 c rest hg hnil ih => exact absurd hnil (splitCRLF_ne_nil rest)
  | case4 c rest hg l ls hsplit ih =>
    rw [splitCRLF.eq_3 c rest hg, hsplit]
    cases ls with
    | nil =>
      have hl : l = rest := splitCRLF_singleton rest l hsplit
      have ih' : hasCRLF l = false := by
        rw [hsplit] at ih
        exact ih
      show hasCRLF (c :: l) = false
      rw [hasCRLF.eq_3 c l (fun t' hc hl' => hg t' hc (hl ▸ hl'))]
      exact ih'
    | cons ls0 ls' =>
      rw [getLastD_cons_ne _ _ _ (List.cons_ne_nil ls0 ls')]
      rw [hsplit, getLastD_cons_ne _ _ _ (List.cons_ne_nil ls0 ls')] at ih
      exact ih

theorem getLastD_append_ne {α : Type} (A B : List α) (d : α) (h : B ≠ []) :
    (A ++ B).getLastD d = B.getLastD d := by
  induction A with
  | nil => rfl
  | cons a A' ih =>
    rw [List.cons_append,
      getLastD_cons_ne _ _ _ (fun hc => h (List.append_eq_nil.mp hc).2)]
    exact ih

theorem dropLast_append_ne {α : Type} (A B : List α) (h : B ≠ []) :
    (A ++ B).dropLast = A ++ B.dropLast := by
  induction A with
  | nil => rfl
  | cons a A' ih =>
    rw [List.cons_append,
      dropLast_cons_ne _ _ (fun hc => h (List.append_eq_nil.mp hc).2), ih,
      List.cons_append]

theorem frame_append (x y : Str) :
    frame (x ++ y) =
      ((frame x).1 ++ (frame ((frame x).2 ++ y)).1, (frame ((frame x).2 ++ y)).2) := by
  have hT := splitCRLF_ne_nil ((splitCRLF x).getLastD [] ++ y)
  unfold frame
  rw [splitCRLF_append x y, dropLast_append_ne _ _ hT, getLastD_append_ne _ _ _ hT]

theorem feedAll_frame (chunks : List Str) (buf : Str) (h : hasCRLF buf = false) :
    feedAll buf chunks = frame (buf ++ chunks.flatten) := by
  induction chunks generalizing buf with
  | nil =>
    simp only [feedAll, List.flatten_nil, List.append_nil]
    unfold frame
    rw [splitCRLF_of_noCRLF buf h]
    rfl
  | cons d rest ih =>
    simp only [feedAll, List.flatten_cons]
    rw [ih ((frame (buf ++ d)).2) (by unfold frame; exact noCRLF_splitLast (buf ++ d)),
      ← List.append_assoc, frame_append (buf ++ d) rest.flatten]

/-- C7: feeding a byte sequence to the receive loop's framer in arbitrary
chunks emits exactly the lines (and leaves exactly the trailing buffer)
obtained by framing the whole sequence at once, so no line is dropped and
framing is boundary-independent; moreover the carried buffer never
contains a line terminator, i.e. it always holds at most one (possibly
empty) incomplete line. Since the chunk list is universally quantified,
the buffer statement covers the buffer after every prefix of the feeds. -/
theorem framing_boundary_independent (chunks : List Str) :
    feedAll [] chunks = frame chunks.flatten ∧
      hasCRLF (feedAll [] chunks).2 = false := by
  have h1 := feedAll_frame chunks [] rfl
  rw [List.nil_append] at h1
  refine ⟨h1, ?_⟩
  rw [h1]
  exact noCRLF_splitLast chunks.flatten

/-- src/config.py: the settings the claims mention, with the default values
taken when the corresponding environment variable is absent (lines 24-34). -/
structure Config where
  MAX_DICE_COUNT : Nat
  MAX_DICE_SIDES : Nat
  AUTO_RECONNECT : Bool
  RECONNECT_DELAY : Nat
  RATE_LIMIT_ENABLED : Bool
  RATE_LIMIT_SECONDS : Nat
deriving Repr, DecidableEq

/-- The defaults of src/config.py. -/
def defaultConfig : Config :=
  { MAX_DICE_COUNT := 10, MAX_DICE_SIDES := 100, AUTO_RECONNECT := true,
    RECONNECT_DELAY := 30, RATE_LIMIT_ENABLED := false, RATE_LIMIT_SECONDS := 2 }

/-- One month's entry of `stats['monthly_stats']` (src/pyircbot.py
lines 67-73). Python dicts are insertion-ordered association lists here. -/
structure Bucket where
  messages_received : Nat
  commands_processed : Nat
  user_messages : List (String × Nat)
deriving Repr, DecidableEq

/-- The `self.stats` dict (src/pyircbot.py lines 62-74); the start
timestamp only feeds display formatting and is omitted. -/
structure Stats where
  messages_received : Nat
  commands_processed : Nat
  user_messages : List (String × Nat)
  monthly_stats : List (String × Bucket)
deriving Repr, DecidableEq

/-- The mutable bot fields the session engine reads or writes. -/
structure Bot where
  nickname : String
  username : String
  realname : String
  channel : String
  current_month : String
  stats : Stats
deriving Repr, DecidableEq

/-- Dict lookup on an insertion-ordered association list. -/
def lookupA {α : Type} (k : String) : List (String × α) → Option α
  | [] => none
  | (k', v) :: t => if k' = k then some v else lookupA k t

/-- In-place dict mutation `d[k] = f(d[k])` of a key that may be absent:
when `k` is missing nothing changes, mirroring that a mutation of the
default dict returned by `get_monthly_stats` for a missing month key is
lost (src/pyircbot.py lines 125-131). -/
def updateA {α : Type} (k : String) (f : α → α) : List (String × α) → List (String × α)
  | [] => []
  | (k', v) :: t => if k' = k then (k', f v) :: t else (k', v) :: updateA k f t

/-- `if u not in d: d[u] = 0` followed by `d[u] += 1`: a missing key is
appended in insertion order. -/
def bumpUser (u : String) : List (String × Nat) → List (String × Nat)
  | [] => [(u, 1)]
  | (k, v) :: t => if k = u then (k, v + 1) :: t else (k, v) :: bumpUser u t

/-- A month bucket as first created: all counters zero. -/
def freshBucket : Bucket := ⟨0, 0, []⟩

/-- `self.stats` as initialised in `__init__` (lines 62-74): zero counters
and one bucket for the startup month. -/
def initStats (month : String) : Stats := ⟨0, 0, [], [(month, freshBucket)]⟩

/-- A bot right after `__init__`. -/
def initBot (nickname username realname channel month : String) : Bot :=
  ⟨nickname, username, realname, channel, month, initStats month⟩

/-- `check_month_change` (lines 95-123): log-file archiving is file-system
I/O outside the model; kept are the month-key comparison against the
wall-clock month `now`, the `current_month` update and the creation of the
new month's bucket when its key is not yet present. -/
def check_month_change (now : String) (b : Bot) : Bot :=
  if now = b.current_month then b
  else
    let b1 : Bot := { b with current_month := now }
    if (lookupA now b1.stats.monthly_stats).isSome then b1
    else
      { b1 with stats := { b1.stats with
          monthly_stats := b1.stats.monthly_stats ++ [(now, freshBucket)] } }

/-- Lines 179-183: `messages_received` incremented all-time and in the
current month's bucket. -/
def bumpMessages (b : Bot) : Bot :=
  { b with stats := { b.stats with
      messages_received := b.stats.messages_received + 1,
      monthly_stats := updateA b.current_month
        (fun bk => { bk with messages_received := bk.messages_received + 1 })
        b.stats.monthly_stats } }

/-- Lines 225-226 and 249-251: `commands_processed` incremented all-time
and in the current month's bucket. -/
def bumpCommands (b : Bot) : Bot :=
  { b with stats := { b.stats with
      commands_processed := b.stats.commands_processed + 1,
      monthly_stats := updateA b.current_month
        (fun bk => { bk with commands_processed := bk.commands_processed + 1 })
        b.stats.monthly_stats } }

/-- Lines 210-219: the per-sender message tallies, all-time and in the
current month's bucket. -/
def bumpUserTallies (sender : String) (b : Bot) : Bot :=
  { b with stats := { b.stats with
      user_messages := bumpUser sender b.stats.user_messages,
      monthly_stats := updateA b.current_month
        (fun bk => { bk with user_messages := bumpUser sender bk.user_messages })
        b.stats.monthly_stats } }

/-- Python `s.startswith(p)`. -/
def startsWithS (p s : String) : Bool := p.data.isPrefixOf s.data

/-- Split at the first occurrence of a character; `none` when absent. -/
def breakOnChar (sep : Char) : Str → Option (Str × Str)
  | [] => none
  | c :: t =>
    if c = sep then some ([], t)
    else
      match breakOnChar sep t with
      | none => none
      | some (a, r) => some (c :: a, r)

/-- Python `line.split(' ', 2)` (line 173): at most two splits on a single
space, consecutive spaces producing empty pieces. -/
def splitSpace2 (s : Str) : List Str :=
  match breakOnChar ' ' s with
  | none => [s]
  | some (a, r) =>
    match breakOnChar ' ' r with
    | none => [a, r]
    | some (b, r2) => [a, b, r2]

/-- Split around the first occurrence of a nonempty substring; `none` when
it does not occur (Python `sep in s` and `s.split(sep, 1)`). -/
def breakOnStr (sep : Str) : Str → Option (Str × Str)
  | [] => none
  | c :: t =>
    if sep.isPrefixOf (c :: t) then some ([], (c :: t).drop sep.length)
    else
      match breakOnStr sep t with
      | none => none
      | some (a, r) => some (c :: a, r)

/-- `parts[0][1:].split('!')[0]` (line 175): the origin nick. -/
def senderOf (p0 : Str) : String :=
  match breakOnChar '!' (p0.drop 1) with
  | some (a, _) => ofChars a
  | none => ofChars (p0.drop 1)

/-- `parts[2].split(' :')[0] if ' :' in parts[2] else parts[2]` (line 193). -/
def privmsgTarget (p2 : Str) : Str :=
  match breakOnStr (str " :") p2 with
  | some (a, _) => a
  | none => p2

/-- `parts[2].split(' :', 1)[1] if ' :' in parts[2] else ''` (line 194). -/
def privmsgBody (p2 : Str) : Str :=
  match breakOnStr (str " :") p2 with
  | some (_, r) => r
  | none => []

/-- Python substring containment `needle in hay` on character lists. -/
def containsSub (needle : Str) : Str → Bool
  | [] => needle.isEmpty
  | c :: t => needle.isPrefixOf (c :: t) || containsSub needle t

/-- Python `needle in hay` on strings. -/
def containsS (needle hay : String) : Bool := containsSub (str needle) (str hay)

/-- Python `line.replace('PING', 'PONG')` (lines 203 and 786): every
occurrence, scanned left to right without overlap. -/
def replacePing : Str → Str
  | [] => []
  | 'P' :: 'I' :: 'N' :: 'G' :: rest => 'P' :: 'O' :: 'N' :: 'G' :: replacePing rest
  | c :: rest => c :: replacePing rest

/-- `line.replace('PING', 'PONG')` on strings. -/
def replacePingS (line : String) : String := ofChars (replacePing (str line))

/-- Falsity of `line.strip()` (line 776): every character is whitespace. -/
def pyBlank (line : String) : Bool :=
  (str line).all fun c =>
    c == ' ' || c == '\t' || c == '\n' || c == '\r' || c == '\x0b' || c == '\x0c'

/-- `random.randint(a, b)`: the `ix`-th value of the pseudo-random stream
`rng`, folded into `[a, b]`; the model constrains only the range, which is
all `randint` guarantees. -/
def randint (rng : Nat → Nat) (ix a b : Nat) : Nat := a + rng ix % (b + 1 - a)

theorem randint_mem (rng : Nat → Nat) (ix a b : Nat) (h : a ≤ b) :
    a ≤ randint rng ix a b ∧ randint rng ix a b ≤ b := by
  unfold randint
  constructor
  · exact Nat.le_add_right a _
  · have h1 : rng ix % (b + 1 - a) < b + 1 - a := Nat.mod_lt _ (by omega)
    omega

/-- A command handler: it reads the bot (`self`), takes `(sender, message)`
and returns an optional reply string; `Except.error` models an exception
escaping the handler. -/
def Handler : Type := Bot → String → String → Except String (Option String)

/-- External effects used by handler bodies: the pseudo-random stream, the
formatted wall-clock and uptime strings, and the reply text computed by
the two HTTP-backed handlers (their network formatting lies outside the
session engine; each catches every exception of its body and always
returns a reply string, src/pyircbot.py lines 306-394 and 600-650). -/
structure Env where
  rng : Nat → Nat
  nowStr : String
  uptimeStr : String
  weatherReply : String → String → String
  googleReply : String → String → String

/-- `cmd_help` (lines 258-261). -/
def cmd_help : Handler := fun _ _ _ =>
  Except.ok (some "Available commands: .help, .time, .ping, .dice, .8ball, .weather, .joke, .stats, .google")

/-- `cmd_time` (lines 263-266); the formatted clock string comes from the
environment. -/
def cmd_time (env : Env) : Handler := fun _ _ _ =>
  Except.ok (some ("Current time: " ++ env.nowStr))

/-- `cmd_ping` (lines 268-270). -/
def cmd_ping : Handler := fun _ sender _ =>
  Except.ok (some ("Pong! Hello " ++ sender ++ "!"))

/-- Longest leading run of ASCII digits, and the rest. -/
def digitSpan : Str → Str × Str
  | [] => ([], [])
  | c :: t =>
    if c.isDigit then
      let p := digitSpan t
      (c :: p.1, p.2)
    else ([], c :: t)

/-- `int(...)` on a digit run. -/
def natOfDigits (d : Str) : Nat := d.foldl (fun n c => n * 10 + (c.toNat - 48)) 0

/-- One attempt of the regex `\.dice (\d+)d(\d+)` anchored at the start of
`s`: the literal `.dice `, a maximal nonempty digit run, a literal `d`, a
second maximal nonempty digit run (`\d+` cannot back off past the literal
`d`, so maximal runs are what the regex engine yields). -/
def diceMatchAt (s : Str) : Option (Nat × Nat) :=
  if (str ".dice ").isPrefixOf s then
    let rest := s.drop 6
    let p1 := digitSpan rest
    if p1.1.isEmpty then none
    else
      match p1.2 with
      | 'd' :: r2 =>
        let p2 := digitSpan r2
        if p2.1.isEmpty then none
        else some (natOfDigits p1.1, natOfDigits p2.1)
      | _ => none
  else none

/-- `re.search(r'\.dice (\d+)d(\d+)', message)` (line 279): the leftmost
start position where the pattern matches. -/
def diceSearch : Str → Option (Nat × Nat)
  | [] => none
  | c :: t =>
    match diceMatchAt (c :: t) with
    | some p => some p
    | none => diceSearch t

/-- Python `str(list)` for a list of naturals. -/
def pyListRepr (l : List Nat) : String :=
  "[" ++ String.intercalate ", " (l.map toString) ++ "]"

/-- `cmd_dice` (lines 272-291), paired with the number of `random.randint`
draws it performs. The bounds 10 and 100 are the hard-coded literals of
line 283. A parsed `NdS` with `S = 0` and `N > 0` raises ValueError inside
the first `randint` call and lands in the bare `except` of line 290. -/
def cmd_dice (rng : Nat → Nat) (sender message : String) : String × Nat :=
  if message = ".dice" then
    (sender ++ " rolled: " ++ toString (randint rng 0 1 6), 1)
  else
    match diceSearch (str message) with
    | some (num_dice, sides) =>
      if num_dice > 10 || sides > 100 then
        ("Dice too large! Max 10 dice, 100 sides.", 0)
      else if sides == 0 && num_dice > 0 then
        ("Invalid dice format! Use .dice or .dice XdY", 0)
      else
        let rolls := (List.range num_dice).map fun i => randint rng i 1 sides
        (sender ++ " rolled " ++ toString num_dice ++ "d" ++ toString sides ++ ": " ++
          pyListRepr rolls ++ " (Total: " ++ toString rolls.sum ++ ")", num_dice)
    | none => ("Usage: .dice or .dice XdY (e.g., .dice 2d20)", 0)

/-- `cmd_dice` as a registry handler. -/
def cmd_dice_handler (env : Env) : Handler := fun _ sender message =>
  Except.ok (some (cmd_dice env.rng sender message).1)

/-- The response table of `cmd_8ball` (lines 295-303). -/
def eightBallResponses : List String :=
  ["It is certain.", "It is decidedly so.", "Without a doubt.",
   "Yes, definitely.", "You may rely on it.", "As I see it, yes.",
   "Most likely.", "Outlook good.", "Yes.", "Signs point to yes.",
   "Reply hazy, try again.", "Ask again later.", "Better not tell you now.",
   "Cannot predict now.", "Concentrate and ask again.",
   "Don't count on it.", "My reply is no.", "My sources say no.",
   "Outlook not so good.", "Very doubtful."]

/-- `cmd_8ball` (lines 293-304): `random.choice` modelled as an
environment-indexed pick. -/
def cmd_8ball (env : Env) : Handler := fun _ _ _ =>
  Except.ok (some ("Magic 8-Ball says: " ++
    eightBallResponses.getD (env.rng 0 % eightBallResponses.length) ""))

/-- `cmd_weather` (lines 306-394): every branch of its body returns a
string and every exception is caught inside it; the HTTP-dependent reply
text is supplied by the environment. -/
def cmd_weather (env : Env) : Handler := fun _ sender message =>
  Except.ok (some (env.weatherReply sender message))

/-- The joke table of `cmd_joke` (lines 564-573). -/
def jokeList : List String :=
  ["Why don't scientists trust atoms? Because they make up everything!",
   "Why did the scarecrow win an award? He was outstanding in his field!",
   "What do you call a fake noodle? An impasta!",
   "Why did the math book look so sad? Because it had too many problems!",
   "What do you call a bear with no teeth? A gummy bear!",
   "Why don't eggs tell jokes? They'd crack each other up!",
   "What do you call a dinosaur that crashes his car? Tyrannosaurus wrecks!",
   "Why did the cookie go to the doctor? Because it was feeling crumbly!"]

/-- `cmd_joke` (lines 562-574). -/
def cmd_joke (env : Env) : Handler := fun _ _ _ =>
  Except.ok (some (jokeList.getD (env.rng 0 % jokeList.length) ""))

/-- Python `max(d, key=d.get)` over an insertion-ordered dict together with
its count: the first key attaining the maximum; `("None", 0)` for the
empty dict, matching the guarded defaults of lines 585-596. -/
def firstMaxUser : List (String × Nat) → String × Nat
  | [] => ("None", 0)
  | (k, v) :: t =>
    let p := firstMaxUser t
    if p.2 > v then p else (k, v)

/-- `cmd_stats` (lines 576-598); the uptime display string comes from the
environment. -/
def cmd_stats (env : Env) : Handler := fun b _ _ =>
  let monthly := (lookupA b.current_month b.stats.monthly_stats).getD freshBucket
  let ml := firstMaxUser monthly.user_messages
  Except.ok (some ("PyIRCBot Stats - Uptime: " ++ env.uptimeStr ++
    ", Messages: " ++ toString b.stats.messages_received ++
    ", Commands: " ++ toString b.stats.commands_processed ++
    " | " ++ b.current_month ++
    ": Messages: " ++ toString monthly.messages_received ++
    ", Commands: " ++ toString monthly.commands_processed ++
    ", Loudmouth: " ++ ml.1 ++ " (" ++ toString ml.2 ++ " messages)"))

/-- `cmd_google` (lines 600-650): like the weather handler, every branch
returns a string; the HTTP-dependent text comes from the environment. -/
def cmd_google (env : Env) : Handler := fun _ sender message =>
  Except.ok (some (env.googleReply sender message))

/-- Stable insertion into a descending-by-count list (Python `sorted` with
`reverse=True` is stable). -/
def insertDesc (x : String × Nat) : List (String × Nat) → List (String × Nat)
  | [] => [x]
  | y :: t => if x.2 > y.2 then x :: y :: t else y :: insertDesc x t

/-- `sorted(d.items(), key=lambda x: x[1], reverse=True)`. -/
def sortDesc (l : List (String × Nat)) : List (String × Nat) :=
  l.foldl (fun acc x => insertDesc x acc) []

/-- Python `response.rstrip(', ')`. -/
def rstripCommaSpace (s : String) : String :=
  ofChars (((str s).reverse.dropWhile fun c => c == ',' || c == ' ').reverse)

/-- `cmd_topusers` (lines 652-663). -/
def cmd_topusers : Handler := fun b _ _ =>
  let monthly := (lookupA b.current_month b.stats.monthly_stats).getD freshBucket
  if monthly.user_messages.isEmpty then
    Except.ok (some ("No user data available for " ++ b.current_month ++ "."))
  else
    let top := (sortDesc monthly.user_messages).take 3
    let body := top.foldl
      (fun acc kv => acc ++ kv.1 ++ " (" ++ toString kv.2 ++ " messages), ") ""
    Except.ok (some (rstripCommaSpace ("Top 3 users for " ++ b.current_month ++ ": " ++ body)))

/-- `self.commands` (lines 48-59): the registry, in registration order. -/
def commands (env : Env) : List (String × Handler) :=
  [(".help", cmd_help), (".time", cmd_time env), (".ping", cmd_ping),
   (".dice", cmd_dice_handler env), (".8ball", cmd_8ball env),
   (".weather", cmd_weather env), (".joke", cmd_joke env),
   (".stats", cmd_stats env), (".google", cmd_google env),
   (".topusers", cmd_topusers)]

/-- The outcome of a processing stage: the bot afterwards, the raw lines
sent (in order), and the exception that escaped the stage, if any. -/
structure PR where
  bot : Bot
  out : List String
  err : Option String
deriving Repr, DecidableEq

/-- `send_message` (lines 157-159) as the raw line it produces. -/
def privmsg (target msg : String) : String := "PRIVMSG " ++ target ++ " :" ++ msg

/-- The command loop of `handle_channel_message` (lines 222-231): scan the
registry in order; on the first prefix match bump the command counters,
invoke the handler, send its reply to the channel, and stop. There is no
try/except around the handler call: a raised error escapes the loop. -/
def channelCmdLoop (b : Bot) (sender message : String) :
    List (String × Handler) → PR
  | [] => ⟨b, [], none⟩
  | (cmd, func) :: rest =>
    if startsWithS cmd message then
      let b1 := bumpCommands b
      match func b1 sender message with
      | Except.error e => ⟨b1, [], some e⟩
      | Except.ok none => ⟨b1, [], none⟩
      | Except.ok (some r) => ⟨b1, [privmsg b1.channel r], none⟩
    else channelCmdLoop b sender message rest

/-- The command loop of `handle_private_message` (lines 247-255): identical
shape, but the reply goes to the sender. -/
def privateCmdLoop (b : Bot) (sender message : String) :
    List (String × Handler) → PR
  | [] => ⟨b, [], none⟩
  | (cmd, func) :: rest =>
    if startsWithS cmd message then
      let b1 := bumpCommands b
      match func b1 sender message with
      | Except.error e => ⟨b1, [], some e⟩
      | Except.ok none => ⟨b1, [], none⟩
      | Except.ok (some r) => ⟨b1, [privmsg sender r], none⟩
    else privateCmdLoop b sender message rest

/-- `handle_channel_message` (lines 206-231): the per-sender tallies are
updated before the command loop runs; link detection is commented out in
the source. -/
def handle_channel_message (cmds : List (String × Handler)) (b : Bot)
    (sender message : String) : PR :=
  channelCmdLoop (bumpUserTallies sender b) sender message cmds

/-- `handle_private_message` (lines 242-255). -/
def handle_private_message (cmds : List (String × Handler)) (b : Bot)
    (sender message : String) : PR :=
  privateCmdLoop b sender message cmds

/-- `handle_message` (lines 166-204): month check first; a line starting
with `:` is split into at most three parts, `messages_received` is bumped
for every such line with three parts, then PING is answered, PRIVMSG is
routed by target, and anything else is ignored; a line not starting with
`:` is answered only when it starts with PING. `now` is the wall-clock
month when the line is processed. -/
def handle_message (cmds : List (String × Handler)) (now line : String)
    (b : Bot) : PR :=
  let b0 := check_month_change now b
  if startsWithS ":" line then
    match splitSpace2 (str line) with
    | [p0, p1, p2] =>
      let sender := senderOf p0
      let message := if (str ":").isPrefixOf p2 then ofChars (p2.drop 1) else ofChars p2
      let b1 := bumpMessages b0
      if p1 = str "PING" then ⟨b1, ["PONG :" ++ message], none⟩
      else if p1 = str "PRIVMSG" then
        let target := ofChars (privmsgTarget p2)
        let actual := ofChars (privmsgBody p2)
        if target = b1.channel then handle_channel_message cmds b1 sender actual
        else handle_private_message cmds b1 sender actual
      else ⟨b1, [], none⟩
    | _ => ⟨b0, [], none⟩
  else
    if startsWithS "PING" line then ⟨b0, [replacePingS line], none⟩
    else ⟨b0, [], none⟩

/-- The if/elif chain of the receive loop (lines 779-787), run after
`handle_message` on every non-blank line: substring tests on the whole
line select JOIN on `001`, nickname mutation plus NICK on `433`, and one
more PONG on `PING`. `rix` indexes the pseudo-random stream. -/
def serverReplyChain (rng : Nat → Nat) (rix : Nat) (b : Bot) (line : String) :
    Bot × Nat × List String :=
  if containsS "001" line then (b, rix, ["JOIN " ++ b.channel])
  else if containsS "433" line then
    let newNick := b.nickname ++ toString (randint rng rix 1 999)
    ({ b with nickname := newNick }, rix + 1, ["NICK " ++ newNick])
  else if containsS "PING" line then (b, rix, [replacePingS line])
  else (b, rix, [])

/-- The outcome of processing framed lines inside the receive loop. -/
structure PLR where
  bot : Bot
  rix : Nat
  out : List String
  err : Option String
deriving Repr, DecidableEq

/-- One iteration of `for line in lines` (lines 775-787): blank lines are
skipped; otherwise `handle_message` runs and, unless it raised, the
server-reply chain follows. -/
def processLine (cmds : List (String × Handler)) (rng : Nat → Nat)
    (now : String) (b : Bot) (rix : Nat) (line : String) : PLR :=
  if pyBlank line then ⟨b, rix, [], none⟩
  else
    let r := handle_message cmds now line b
    match r.err with
    | some e => ⟨r.bot, rix, r.out, some e⟩
    | none =>
      let c := serverReplyChain rng rix r.bot line
      ⟨c.1, c.2.1, r.out ++ c.2.2, none⟩

/-- The whole `for line in lines` loop over one chunk's framed lines; an
escaped exception stops the loop (it unwinds to the try of line 765). -/
def processLines (cmds : List (String × Handler)) (rng : Nat → Nat)
    (now : String) (b : Bot) (rix : Nat) : List String → PLR
  | [] => ⟨b, rix, [], none⟩
  | l :: rest =>
    let r := processLine cmds rng now b rix l
    match r.err with
    | some e => ⟨r.bot, r.rix, r.out, some e⟩
    | none =>
      let q := processLines cmds rng now r.bot r.rix rest
      ⟨q.bot, q.rix, r.out ++ q.out, q.err⟩

/-- One `recv` outcome in the receive loop (line 767), or the exception it
raised; `month` is the wall-clock month while the chunk's lines are
processed, and an empty `data` is the peer closing the connection. -/
inductive NetEvent where
  | recv (month data : String)
  | err
deriving Repr, DecidableEq

/-- How `run` came to return. -/
inductive RunEnd where
  | connectFailed
  | peerClosed
  | recvError
  | loopError
  | endOfTrace
deriving Repr, DecidableEq

/-- What `run` did: final bot, every raw line sent, how many times
`connect()` was called, and why the loop ended. -/
structure RunResult where
  bot : Bot
  out : List String
  connects : Nat
  ended : RunEnd
deriving Repr, DecidableEq

/-- `cleanup` (lines 796-802): the farewell line it sends. -/
def quitLine : String := "QUIT :PyIRCBot signing off!"

/-- The `while self.running` loop of `run` (lines 766-787) over a finite
event trace. A `recv` exception or an exception escaping line processing
is caught by the except of lines 789-792 and, like `if not data: break`,
falls into `finally: cleanup()`, which sends the QUIT line; an exhausted
trace means the session is still running (blocked in `recv`), so no
cleanup has happened yet. -/
def runLoop (cmds : List (String × Handler)) (rng : Nat → Nat) :
    Bot → Nat → Str → List NetEvent → Bot × List String × RunEnd
  | b, _, _, [] => (b, [], RunEnd.endOfTrace)
  | b, _, _, NetEvent.err :: _ => (b, [quitLine], RunEnd.recvError)
  | b, rix, buf, NetEvent.recv month data :: rest =>
    if data = "" then (b, [quitLine], RunEnd.peerClosed)
    else
      let p := frame (buf ++ str data)
      let r := processLines cmds rng month b rix (p.1.map ofChars)
      match r.err with
      | some _ => (r.bot, r.out ++ [quitLine], RunEnd.loopError)
      | none =>
        let q := runLoop cmds rng r.bot r.rix p.2 rest
        (q.1, r.out ++ q.2.1, q.2.2)

/-- `run` (lines 757-794): one `connect()`; on failure it returns at once
(line 759-760, no cleanup); on success the registration lines NICK and
USER are sent (lines 141-142) and the receive loop runs. `connects`
counts the `connect()` calls made on the path taken: the code contains no
reconnection, so it is 1 on every path. -/
def run (cmds : List (String × Handler)) (rng : Nat → Nat) (b0 : Bot)
    (connectOk : Bool) (events : List NetEvent) : RunResult :=
  if connectOk then
    let q := runLoop cmds rng b0 0 [] events
    ⟨q.1, ("NICK " ++ b0.nickname) ::
      ("USER " ++ b0.username ++ " 0 * :" ++ b0.realname) :: q.2.1, 1, q.2.2⟩
  else ⟨b0, [], 1, RunEnd.connectFailed⟩

theorem lookupA_updateA_self {α : Type} (k : String) (f : α → α)
    (l : List (String × α)) :
    lookupA k (updateA k f l) = (lookupA k l).map f := by
  induction l with
  | nil => rfl
  | cons p t ih =>
    by_cases h : p.1 = k
    · simp [updateA, lookupA, h]
    · simp [updateA, lookupA, h, ih]

theorem lookupA_updateA_ne {α : Type} (k k' : String) (f : α → α)
    (l : List (String × α)) (h : k' ≠ k) :
    lookupA k' (updateA k f l) = lookupA k' l := by
  induction l with
  | nil => rfl
  | cons p t ih =>
    obtain ⟨k0, v⟩ := p
    by_cases h0 : k0 = k
    · subst h0
      simp [updateA, lookupA, Ne.symm h]
    · by_cases h1 : k0 = k'
      · simp [updateA, lookupA, h0, h1, h]
      · simp [updateA, lookupA, h0, h1, ih]

theorem lookupA_append_none {α : Type} (k : String) (l1 l2 : List (String × α))
    (h : lookupA k l1 = none) :
    lookupA k (l1 ++ l2) = lookupA k l2 := by
  induction l1 with
  | nil => rfl
  | cons p t ih =>
    by_cases hp : p.1 = k
    · simp [lookupA, hp] at h
    · simp [lookupA, hp] at h ⊢
      exact ih h

theorem lookupA_append_some {α : Type} (k : String) (v : α)
    (l1 l2 : List (String × α)) (h : lookupA k l1 = some v) :
    lookupA k (l1 ++ l2) = some v := by
  induction l1 with
  | nil => simp [lookupA] at h
  | cons p t ih =>
    by_cases hp : p.1 = k
    · simp [lookupA, hp] at h ⊢
      exact h
    · simp [lookupA, hp] at h ⊢
      exact ih h

/-- What the channel command loop does when no registry prefix matches the
text: nothing at all. -/
theorem channelCmdLoop_no_match (b : Bot) (sender message : String)
    (cmds : List (String × Handler))
    (h : cmds.find? (fun e => startsWithS e.1 message) = none) :
    channelCmdLoop b sender message cmds = ⟨b, [], none⟩ := by
  induction cmds with
  | nil => rfl
  | cons p t ih =>
    obtain ⟨c, f⟩ := p
    by_cases hp : startsWithS c message = true
    · simp only [List.find?_cons, hp] at h
      simp at h
    · have hp' : startsWithS c message = false := by simpa using hp
      simp only [List.find?_cons, hp'] at h
      simp only [channelCmdLoop, if_neg hp]
      exact ih h

/-- What the channel command loop does with the first matching entry: bump
the command counters, call that handler only, and send its reply. -/
theorem channelCmdLoop_match (b : Bot) (sender message : String)
    (cmds : List (String × Handler)) (c : String) (f : Handler)
    (h : cmds.find? (fun e => startsWithS e.1 message) = some (c, f)) :
    channelCmdLoop b sender message cmds =
      match f (bumpCommands b) sender message with
      | Except.error e => ⟨bumpCommands b, [], some e⟩
      | Except.ok none => ⟨bumpCommands b, [], none⟩
      | Except.ok (some r) =>
        ⟨bumpCommands b, [privmsg (bumpCommands b).channel r], none⟩ := by
  induction cmds with
  | nil => simp [List.find?] at h
  | cons p t ih =>
    obtain ⟨c0, f0⟩ := p
    by_cases hp : startsWithS c0 message = true
    · simp only [List.find?_cons, hp] at h
      obtain ⟨hc, hf⟩ := Prod.mk.inj (Option.some.inj h)
      subst hc
      subst hf
      simp only [channelCmdLoop, if_pos hp]
    · have hp' : startsWithS c0 message = false := by simpa using hp
      simp only [List.find?_cons, hp'] at h
      simp only [channelCmdLoop, if_neg hp]
      exact ih h

/-- The private command loop when no registry prefix matches. -/
theorem privateCmdLoop_no_match (b : Bot) (sender message : String)
    (cmds : List (String × Handler))
    (h : cmds.find? (fun e => startsWithS e.1 message) = none) :
    privateCmdLoop b sender message cmds = ⟨b, [], none⟩ := by
  induction cmds with
  | nil => rfl
  | cons p t ih =>
    obtain ⟨c, f⟩ := p
    by_cases hp : startsWithS c message = true
    · simp only [List.find?_cons, hp] at h
      simp at h
    · have hp' : startsWithS c message = false := by simpa using hp
      simp only [List.find?_cons, hp'] at h
      simp only [privateCmdLoop, if_neg hp]
      exact ih h

/-- The private command loop with the first matching entry. -/
theorem privateCmdLoop_match (b : Bot) (sender message : String)
    (cmds : List (String × Handler)) (c : String) (f : Handler)
    (h : cmds.find? (fun e => startsWithS e.1 message) = some (c, f)) :
    privateCmdLoop b sender message cmds =
      match f (bumpCommands b) sender message with
      | Except.error e => ⟨bumpCommands b, [], some e⟩
      | Except.ok none => ⟨bumpCommands b, [], none⟩
      | Except.ok (some r) => ⟨bumpCommands b, [privmsg sender r], none⟩ := by
  induction cmds with
  | nil => simp [List.find?] at h
  | cons p t ih =>
    obtain ⟨c0, f0⟩ := p
    by_cases hp : startsWithS c0 message = true
    · simp only [List.find?_cons, hp] at h
      obtain ⟨hc, hf⟩ := Prod.mk.inj (Option.some.inj h)
      subst hc
      subst hf
      simp only [privateCmdLoop, if_pos hp]
    · have hp' : startsWithS c0 message = false := by simpa using hp
      simp only [List.find?_cons, hp'] at h
      simp only [privateCmdLoop, if_neg hp]
      exact ih h

/-- The bot the channel command loop leaves behind: the command counters
are bumped exactly when some entry matched, whatever the handler did. -/
theorem channelCmdLoop_bot (b : Bot) (sender message : String)
    (cmds : List (String × Handler)) :
    (channelCmdLoop b sender message cmds).bot =
      if (cmds.find? (fun e => startsWithS e.1 message)).isSome
      then bumpCommands b else b := by
  induction cmds with
  | nil => rfl
  | cons p t ih =>
    obtain ⟨c, f⟩ := p
    by_cases hp : startsWithS c message = true
    · simp only [List.find?_cons, hp]
      simp only [channelCmdLoop, if_pos hp, Option.isSome_some, if_true]
      cases f (bumpCommands b) sender message with
      | error e => rfl
      | ok o => cases o <;> rfl
    · have hp' : startsWithS c message = false := by simpa using hp
      simp only [List.find?_cons, hp']
      simp only [channelCmdLoop, if_neg hp]
      exact ih

/-- Same for the private command loop. -/
theorem privateCmdLoop_bot (b : Bot) (sender message : String)
    (cmds : List (String × Handler)) :
    (privateCmdLoop b sender message cmds).bot =
      if (cmds.find? (fun e => startsWithS e.1 message)).isSome
      then bumpCommands b else b := by
  induction cmds with
  | nil => rfl
  | cons p t ih =>
    obtain ⟨c, f⟩ := p
    by_cases hp : startsWithS c message = true
    · simp only [List.find?_cons, hp]
      simp only [privateCmdLoop, if_pos hp, Option.isSome_some, if_true]
      cases f (bumpCommands b) sender message with
      | error e => rfl
      | ok o => cases o <;> rfl
    · have hp' : startsWithS c message = false := by simpa using hp
      simp only [List.find?_cons, hp']
      simp only [privateCmdLoop, if_neg hp]
      exact ih

theorem check_month_change_channel (now : String) (b : Bot) :
    (check_month_change now b).channel = b.channel := by
  unfold check_month_change
  split
  · rfl
  · dsimp only
    split <;> rfl

theorem check_month_change_current (now : String) (b : Bot)
    (h : now ≠ b.current_month) :
    (check_month_change now b).current_month = now := by
  simp only [check_month_change, if_neg h]
  split <;> rfl

theorem check_month_change_self (now : String) (b : Bot)
    (h : now = b.current_month) :
    check_month_change now b = b := by
  simp [check_month_change, h]

theorem check_month_change_monthly_fresh (now : String) (b : Bot)
    (hnow : now ≠ b.current_month)
    (hfresh : lookupA now b.stats.monthly_stats = none) :
    (check_month_change now b).stats.monthly_stats =
      b.stats.monthly_stats ++ [(now, freshBucket)] := by
  simp only [check_month_change, if_neg hnow]
  rw [if_neg (by simp [hfresh] : ¬(lookupA now b.stats.monthly_stats).isSome = true)]

/-- `handle_message` on a parsed PRIVMSG line whose target is the
configured channel reduces to the channel path after the month check and
the `messages_received` bump. -/
theorem handle_message_privmsg_channel (cmds : List (String × Handler))
    (now line : String) (b : Bot) (p0 p2 : Str)
    (hcolon : startsWithS ":" line = true)
    (hparts : splitSpace2 (str line) = [p0, str "PRIVMSG", p2])
    (htarget : ofChars (privmsgTarget p2) = b.channel) :
    handle_message cmds now line b =
      handle_channel_message cmds (bumpMessages (check_month_change now b))
        (senderOf p0) (ofChars (privmsgBody p2)) := by
  unfold handle_message
  rw [if_pos hcolon, hparts]
  have hch : (bumpMessages (check_month_change now b)).channel = b.channel := by
    show (check_month_change now b).channel = b.channel
    exact check_month_change_channel now b
  simp only [if_neg (by decide : ¬(str "PRIVMSG" = str "PING")),
    if_pos (rfl : str "PRIVMSG" = str "PRIVMSG"), hch, if_pos htarget, if_true]

/-- `handle_message` on a parsed PRIVMSG line whose target differs from the
configured channel reduces to the private path, still after the
`messages_received` bump. -/
theorem handle_message_privmsg_direct (cmds : List (String × Handler))
    (now line : String) (b : Bot) (p0 p2 : Str)
    (hcolon : startsWithS ":" line = true)
    (hparts : splitSpace2 (str line) = [p0, str "PRIVMSG", p2])
    (htarget : ofChars (privmsgTarget p2) ≠ b.channel) :
    handle_message cmds now line b =
      handle_private_message cmds (bumpMessages (check_month_change now b))
        (senderOf p0) (ofChars (privmsgBody p2)) := by
  unfold handle_message
  rw [if_pos hcolon, hparts]
  have hch : (bumpMessages (check_month_change now b)).channel = b.channel := by
    show (check_month_change now b).channel = b.channel
    exact check_month_change_channel now b
  simp only [if_neg (by decide : ¬(str "PRIVMSG" = str "PING")),
    if_pos (rfl : str "PRIVMSG" = str "PRIVMSG"), hch, if_neg htarget, if_true]

/-- `handle_message` on a parsed line whose command token is `PING`:
one PONG carrying the (`:`-stripped) trailing text, sent at once. -/
theorem handle_message_server_ping (cmds : List (String × Handler))
    (now line : String) (b : Bot) (p0 p2 : Str)
    (hcolon : startsWithS ":" line = true)
    (hparts : splitSpace2 (str line) = [p0, str "PING", p2]) :
    handle_message cmds now line b =
      ⟨bumpMessages (check_month_change now b),
        ["PONG :" ++ (if (str ":").isPrefixOf p2 then ofChars (p2.drop 1) else ofChars p2)],
        none⟩ := by
  unfold handle_message
  rw [if_pos hcolon, hparts]
  simp only [if_pos (rfl : str "PING" = str "PING"), if_true]

/-- `handle_message` on a parsed line whose command token is neither PING
nor PRIVMSG: the counters are still bumped, nothing is sent. -/
theorem handle_message_other_command (cmds : List (String × Handler))
    (now line : String) (b : Bot) (p0 p1 p2 : Str)
    (hcolon : startsWithS ":" line = true)
    (hparts : splitSpace2 (str line) = [p0, p1, p2])
    (hping : p1 ≠ str "PING") (hpriv : p1 ≠ str "PRIVMSG") :
    handle_message cmds now line b =
      ⟨bumpMessages (check_month_change now b), [], none⟩ := by
  unfold handle_message
  rw [if_pos hcolon, hparts]
  simp only [if_neg hping, if_neg hpriv]

/-- A concrete handler environment for witnesses. -/
def exEnv : Env :=
  ⟨fun _ => 0, "2025-09-01 00:00:00", "0:00:00", fun _ _ => "", fun _ _ => ""⟩

/-- A concrete freshly initialised bot for witnesses. -/
def exBot : Bot := initBot "bot" "user" "real" "#chan" "09-2025"

/-- C4: for every dispatched message text the registry is scanned in
registration order and the first entry whose command prefix is a literal
prefix of the text is invoked — `List.find?` is exactly first-match in
list order, so no later entry is considered even if it would match; the
matched branch bumps the command counters and sends the handler's reply,
and when no entry matches both dispatch loops return the bot unchanged
with no reply and no statistics update. -/
theorem c4_dispatch_first_match_wins (cmds : List (String × Handler)) (b : Bot)
    (sender message : String) :
    (cmds.find? (fun e => startsWithS e.1 message) = none →
      channelCmdLoop b sender message cmds = ⟨b, [], none⟩ ∧
      privateCmdLoop b sender message cmds = ⟨b, [], none⟩) ∧
    (∀ c f, cmds.find? (fun e => startsWithS e.1 message) = some (c, f) →
      channelCmdLoop b sender message cmds =
        (match f (bumpCommands b) sender message with
         | Except.error e => ⟨bumpCommands b, [], some e⟩
         | Except.ok none => ⟨bumpCommands b, [], none⟩
         | Except.ok (some r) =>
           ⟨bumpCommands b, [privmsg (bumpCommands b).channel r], none⟩) ∧
      privateCmdLoop b sender message cmds =
        (match f (bumpCommands b) sender message with
         | Except.error e => ⟨bumpCommands b, [], some e⟩
         | Except.ok none => ⟨bumpCommands b, [], none⟩
         | Except.ok (some r) => ⟨bumpCommands b, [privmsg sender r], none⟩)) :=
  ⟨fun h => ⟨channelCmdLoop_no_match b sender message cmds h,
      privateCmdLoop_no_match b sender message cmds h⟩,
   fun c f h => ⟨channelCmdLoop_match b sender message cmds c f h,
      privateCmdLoop_match b sender message cmds c f h⟩⟩

/-- Witness for C4 on the shipped registry: `.ping hi` selects the `.ping`
entry (the first whose prefix matches) and produces its reply with the
counters bumped; `zzz` matches nothing, so nothing changes. -/
theorem c4_dispatch_first_match_wins_witness :
    (commands exEnv).find? (fun e => startsWithS e.1 ".ping hi") =
        some (".ping", cmd_ping) ∧
    channelCmdLoop exBot "nick" ".ping hi" (commands exEnv) =
      ⟨bumpCommands exBot,
        [privmsg (bumpCommands exBot).channel "Pong! Hello nick!"], none⟩ ∧
    channelCmdLoop exBot "nick" "zzz" (commands exEnv) = ⟨exBot, [], none⟩ := by
  refine ⟨rfl, ?_, ?_⟩
  · exact ((c4_dispatch_first_match_wins (commands exEnv) exBot "nick" ".ping hi").2
      ".ping" cmd_ping rfl).1
  · exact ((c4_dispatch_first_match_wins (commands exEnv) exBot "nick" "zzz").1 rfl).1

/-- C9: the month rollover of `check_month_change` is idempotent for the
same wall-clock month key (running it again when that month is already
current changes nothing) and preserves every existing bucket; and after a
change to a not-yet-seen month, a subsequent channel message starts that
month's fresh bucket with `messages_received = 1` while every prior
month's bucket stays retrievable by its key, unchanged. -/
theorem c9_month_rollover (now : String) (b : Bot)
    (cmds : List (String × Handler)) (line : String) (p0 p2 : Str) :
    (check_month_change now (check_month_change now b) =
      check_month_change now b) ∧
    (∀ k v, lookupA k b.stats.monthly_stats = some v →
      lookupA k (check_month_change now b).stats.monthly_stats = some v) ∧
    (startsWithS ":" line = true →
     splitSpace2 (str line) = [p0, str "PRIVMSG", p2] →
     ofChars (privmsgTarget p2) = b.channel →
     now ≠ b.current_month →
     lookupA now b.stats.monthly_stats = none →
     (lookupA now
         (handle_message cmds now line b).bot.stats.monthly_stats).map
         Bucket.messages_received = some 1 ∧
     (∀ k v, k ≠ now → lookupA k b.stats.monthly_stats = some v →
        lookupA k (handle_message cmds now line b).bot.stats.monthly_stats =
          some v)) := by
  refine ⟨?_, ?_, ?_⟩
  · by_cases hnow : now = b.current_month
    · have hred : check_month_change now b = b := check_month_change_self now b hnow
      rw [hred]
      exact hred
    · exact check_month_change_self now (check_month_change now b)
        (check_month_change_current now b hnow).symm
  · intro k v hv
    by_cases hnow : now = b.current_month
    · rw [check_month_change_self now b hnow]
      exact hv
    · simp only [check_month_change, if_neg hnow]
      split
      · exact hv
      · exact lookupA_append_some k v _ _ hv
  · intro hcolon hparts htarget hnew hfresh
    rw [handle_message_privmsg_channel cmds now line b p0 p2 hcolon hparts htarget]
    have h0c : (check_month_change now b).current_month = now :=
      check_month_change_current now b hnew
    have h0m : (check_month_change now b).stats.monthly_stats =
        b.stats.monthly_stats ++ [(now, freshBucket)] :=
      check_month_change_monthly_fresh now b hnew hfresh
    have h1 : lookupA now
        (bumpMessages (check_month_change now b)).stats.monthly_stats =
        some ⟨1, 0, []⟩ := by
      show lookupA now (updateA (check_month_change now b).current_month _
        (check_month_change now b).stats.monthly_stats) = _
      rw [h0c, lookupA_updateA_self, h0m,
        lookupA_append_none now _ _ hfresh]
      simp [lookupA, freshBucket]
    have h2 : lookupA now
        (bumpUserTallies (senderOf p0)
          (bumpMessages (check_month_change now b))).stats.monthly_stats =
        some ⟨1, 0, bumpUser (senderOf p0) []⟩ := by
      show lookupA now (updateA
        (bumpMessages (check_month_change now b)).current_month _
        (bumpMessages (check_month_change now b)).stats.monthly_stats) = _
      have hc1 : (bumpMessages (check_month_change now b)).current_month = now := h0c
      rw [hc1, lookupA_updateA_self, h1]
      rfl
    constructor
    · unfold handle_channel_message
      rw [channelCmdLoop_bot]
      split
      · show (lookupA now (updateA
          (bumpUserTallies (senderOf p0)
            (bumpMessages (check_month_change now b))).current_month _
          (bumpUserTallies (senderOf p0)
            (bumpMessages (check_month_change now b))).stats.monthly_stats)).map
            Bucket.messages_received = some 1
        have hc2 : (bumpUserTallies (senderOf p0)
            (bumpMessages (check_month_change now b))).current_month = now := h0c
        rw [hc2, lookupA_updateA_self, h2]
        rfl
      · rw [h2]
        rfl
    · intro k v hkn hv
      have hb0 : lookupA k (check_month_change now b).stats.monthly_stats =
          some v := by
        rw [h0m]
        exact lookupA_append_some k v _ _ hv
      have hb1 : lookupA k
          (bumpMessages (check_month_change now b)).stats.monthly_stats =
          some v := by
        show lookupA k (updateA (check_month_change now b).current_month _
          (check_month_change now b).stats.monthly_stats) = _
        rw [h0c, lookupA_updateA_ne _ _ _ _ hkn]
        exact hb0
      have hb2 : lookupA k
          (bumpUserTallies (senderOf p0)
            (bumpMessages (check_month_change now b))).stats.monthly_stats =
          some v := by
        show lookupA k (updateA
          (bumpMessages (check_month_change now b)).current_month _
          (bumpMessages (check_month_change now b)).stats.monthly_stats) = _
        have hc1 : (bumpMessages (check_month_change now b)).current_month = now := h0c
        rw [hc1, lookupA_updateA_ne _ _ _ _ hkn]
        exact hb1
      unfold handle_channel_message
      rw [channelCmdLoop_bot]
      split
      · show lookupA k (updateA
          (bumpUserTallies (senderOf p0)
            (bumpMessages (check_month_change now b))).current_month _
          (bumpUserTallies (senderOf p0)
            (bumpMessages (check_month_change now b))).stats.monthly_stats) =
          some v
        have hc2 : (bumpUserTallies (senderOf p0)
            (bumpMessages (check_month_change now b))).current_month = now := h0c
        rw [hc2, lookupA_updateA_ne _ _ _ _ hkn]
        exact hb2
      · exact hb2

/-- Witness for C9: from the freshly initialised bot, a month change to
`10-2025` followed by a channel message starts the new bucket at one
message while the September bucket survives unchanged. -/
theorem c9_month_rollover_witness :
    check_month_change "10-2025" (check_month_change "10-2025" exBot) =
        check_month_change "10-2025" exBot ∧
    (lookupA "10-2025"
        (handle_message (commands exEnv) "10-2025"
          ":alice!u@h PRIVMSG #chan :hello there" exBot).bot.stats.monthly_stats).map
        Bucket.messages_received = some 1 ∧
    lookupA "09-2025"
        (handle_message (commands exEnv) "10-2025"
          ":alice!u@h PRIVMSG #chan :hello there" exBot).bot.stats.monthly_stats =
      some freshBucket := by
  have h := c9_month_rollover "10-2025" exBot (commands exEnv)
    ":alice!u@h PRIVMSG #chan :hello there" (str ":alice!u@h")
    (str "#chan :hello there")
  refine ⟨h.1, ?_, ?_⟩
  · exact (h.2.2 rfl (by decide) rfl (by decide) rfl).1
  · exact (h.2.2 rfl (by decide) rfl (by decide) rfl).2 "09-2025" freshBucket
      (by decide) rfl

/-- Counterexample for C5: the line `:alice!u@h PRIVMSG bot :hello` is a
direct message (its target `bot` differs from the configured channel
`#chan`), yet processing it increments `messages_received` both all-time
and in the current month's bucket — `handle_message` counts every parsed
`:`-prefixed line with three parts before looking at the target (lines
179-183), so the claim that a direct message increments none of those
counters is false. -/
theorem c5_direct_message_counted_counterexample :
    ofChars (privmsgTarget (str "bot :hello")) = "bot" ∧
    exBot.channel = "#chan" ∧
    exBot.stats.messages_received = 0 ∧
    (handle_message (commands exEnv) "09-2025"
        ":alice!u@h PRIVMSG bot :hello" exBot).bot.stats.messages_received = 1 ∧
    (lookupA "09-2025"
        (handle_message (commands exEnv) "09-2025"
          ":alice!u@h PRIVMSG bot :hello" exBot).bot.stats.monthly_stats).map
        Bucket.messages_received = some 1 := by
  refine ⟨rfl, rfl, rfl, ?_, ?_⟩ <;> rfl

/-- C5 as amended: for every parsed `:`-prefixed three-part inbound line,
`messages_received` (all-time, and the current bucket via the monthly
update) is incremented exactly once whatever the target; a channel-target
PRIVMSG additionally applies the per-sender tallies before the command
loop runs and bumps the command counters exactly when a command prefix
matches; a direct PRIVMSG leaves the tallies untouched and bumps only the
command counters, and only on a match — but, contrary to the original
claim, it still gets the `messages_received` increments. -/
theorem c5_accounting_asymmetry (cmds : List (String × Handler))
    (now line : String) (b : Bot) (p0 p1 p2 : Str)
    (hcolon : startsWithS ":" line = true)
    (hparts : splitSpace2 (str line) = [p0, p1, p2]) :
    (handle_message cmds now line b).bot.stats.messages_received =
      (check_month_change now b).stats.messages_received + 1 ∧
    (p1 = str "PRIVMSG" → ofChars (privmsgTarget p2) = b.channel →
      (handle_message cmds now line b).bot =
        if (cmds.find? (fun e =>
            startsWithS e.1 (ofChars (privmsgBody p2)))).isSome
        then bumpCommands (bumpUserTallies (senderOf p0)
          (bumpMessages (check_month_change now b)))
        else bumpUserTallies (senderOf p0)
          (bumpMessages (check_month_change now b))) ∧
    (p1 = str "PRIVMSG" → ofChars (privmsgTarget p2) ≠ b.channel →
      (handle_message cmds now line b).bot =
        if (cmds.find? (fun e =>
            startsWithS e.1 (ofChars (privmsgBody p2)))).isSome
        then bumpCommands (bumpMessages (check_month_change now b))
        else bumpMessages (check_month_change now b)) := by
  refine ⟨?_, ?_, ?_⟩
  · by_cases hping : p1 = str "PING"
    · subst hping
      rw [handle_message_server_ping cmds now line b p0 p2 hcolon hparts]
      rfl
    · by_cases hpriv : p1 = str "PRIVMSG"
      · subst hpriv
        by_cases ht : ofChars (privmsgTarget p2) = b.channel
        · rw [handle_message_privmsg_channel cmds now line b p0 p2 hcolon hparts ht]
          unfold handle_channel_message
          rw [channelCmdLoop_bot]
          split <;> rfl
        · rw [handle_message_privmsg_direct cmds now line b p0 p2 hcolon hparts ht]
          unfold handle_private_message
          rw [privateCmdLoop_bot]
          split <;> rfl
      · rw [handle_message_other_command cmds now line b p0 p1 p2 hcolon hparts
          hping hpriv]
        rfl
  · intro hpriv ht
    subst hpriv
    rw [handle_message_privmsg_channel cmds now line b p0 p2 hcolon hparts ht]
    unfold handle_channel_message
    rw [channelCmdLoop_bot]
  · intro hpriv ht
    subst hpriv
    rw [handle_message_privmsg_direct cmds now line b p0 p2 hcolon hparts ht]
    unfold handle_private_message
    rw [privateCmdLoop_bot]

/-- Witness for C5 as amended: a channel message with no matching command
applies exactly the tally and message bumps; a direct message with no
matching command applies exactly the message bump. -/
theorem c5_accounting_asymmetry_witness :
    (handle_message (commands exEnv) "09-2025"
        ":alice!u@h PRIVMSG #chan :hi" exBot).bot =
      bumpUserTallies "alice" (bumpMessages (check_month_change "09-2025" exBot)) ∧
    (handle_message (commands exEnv) "09-2025"
        ":alice!u@h PRIVMSG bot :hi" exBot).bot =
      bumpMessages (check_month_change "09-2025" exBot) := by
  constructor
  · have h := (c5_accounting_asymmetry (commands exEnv) "09-2025"
      ":alice!u@h PRIVMSG #chan :hi" exBot (str ":alice!u@h") (str "PRIVMSG")
      (str "#chan :hi") rfl (by decide)).2.1 rfl rfl
    rw [if_neg (by decide)] at h
    exact h
  · have h := (c5_accounting_asymmetry (commands exEnv) "09-2025"
      ":alice!u@h PRIVMSG bot :hi" exBot (str ":alice!u@h") (str "PRIVMSG")
      (str "bot :hi") rfl (by decide)).2.2 rfl (by decide)
    rw [if_neg (by decide)] at h
    exact h

/-- The statistics invariant of the specification: commands never exceed
messages, all-time and in every retrievable monthly bucket. -/
def statsInv (s : Stats) : Prop :=
  s.commands_processed ≤ s.messages_received ∧
  ∀ k bk, lookupA k s.monthly_stats = some bk →
    bk.commands_processed ≤ bk.messages_received

/-- Strict slack at the current month, as holds right after the
`messages_received` bump and before any command bump. -/
def slackAt (b : Bot) : Prop :=
  b.stats.commands_processed < b.stats.messages_received ∧
  (∀ bk, lookupA b.current_month b.stats.monthly_stats = some bk →
    bk.commands_processed < bk.messages_received) ∧
  (∀ k bk, k ≠ b.current_month → lookupA k b.stats.monthly_stats = some bk →
    bk.commands_processed ≤ bk.messages_received)

theorem lookupA_append_singleton {α : Type} (k k0 : String) (v0 : α)
    (l : List (String × α)) (bk : α)
    (h : lookupA k (l ++ [(k0, v0)]) = some bk) :
    lookupA k l = some bk ∨ bk = v0 := by
  induction l with
  | nil =>
    simp only [List.nil_append, lookupA] at h
    by_cases h0 : k0 = k
    · rw [if_pos h0] at h
      exact Or.inr (Option.some.inj h).symm
    · rw [if_neg h0] at h
      exact absurd h (by simp)
  | cons p t ih =>
    by_cases hp : p.1 = k
    · simp only [List.cons_append, lookupA, if_pos hp] at h ⊢
      exact Or.inl h
    · simp only [List.cons_append, lookupA, if_neg hp] at h ⊢
      exact ih h

theorem statsInv_check_month_change (now : String) (b : Bot)
    (h : statsInv b.stats) : statsInv (check_month_change now b).stats := by
  by_cases hnow : now = b.current_month
  · rw [check_month_change_self now b hnow]
    exact h
  · simp only [check_month_change, if_neg hnow]
    split
    · exact h
    · refine ⟨h.1, ?_⟩
      intro k bk hk
      rcases lookupA_append_singleton k now freshBucket _ bk hk with h1 | h1
      · exact h.2 k bk h1
      · rw [h1]
        exact Nat.le_refl 0

theorem slackAt_bumpMessages (b : Bot) (h : statsInv b.stats) :
    slackAt (bumpMessages b) := by
  refine ⟨Nat.lt_succ_of_le h.1, ?_, ?_⟩
  · intro bk hk
    have hk' : lookupA b.current_month
        (updateA b.current_month
          (fun bk => { bk with messages_received := bk.messages_received + 1 })
          b.stats.monthly_stats) = some bk := hk
    rw [lookupA_updateA_self] at hk'
    cases hbk : lookupA b.current_month b.stats.monthly_stats with
    | none => rw [hbk] at hk'; exact absurd hk' (by simp)
    | some bk0 =>
      rw [hbk] at hk'
      simp only [Option.map_some'] at hk'
      rw [← Option.some.inj hk']
      exact Nat.lt_succ_of_le (h.2 b.current_month bk0 hbk)
  · intro k bk hkne hk
    have hkne' : k ≠ b.current_month := hkne
    have hk' : lookupA k
        (updateA b.current_month
          (fun bk => { bk with messages_received := bk.messages_received + 1 })
          b.stats.monthly_stats) = some bk := hk
    rw [lookupA_updateA_ne _ _ _ _ hkne'] at hk'
    exact h.2 k bk hk'

theorem statsInv_of_slackAt (b : Bot) (h : slackAt b) : statsInv b.stats := by
  refine ⟨Nat.le_of_lt h.1, ?_⟩
  intro k bk hk
  by_cases hkc : k = b.current_month
  · subst hkc
    exact Nat.le_of_lt (h.2.1 bk hk)
  · exact h.2.2 k bk hkc hk

theorem statsInv_bumpCommands_of_slackAt (b : Bot) (h : slackAt b) :
    statsInv (bumpCommands b).stats := by
  refine ⟨h.1, ?_⟩
  intro k bk hk
  have hk' : lookupA k
      (updateA b.current_month
        (fun bk => { bk with commands_processed := bk.commands_processed + 1 })
        b.stats.monthly_stats) = some bk := hk
  by_cases hkc : k = b.current_month
  · rw [hkc] at hk'
    rw [lookupA_updateA_self] at hk'
    cases hbk : lookupA b.current_month b.stats.monthly_stats with
    | none => rw [hbk] at hk'; exact absurd hk' (by simp)
    | some bk0 =>
      rw [hbk] at hk'
      simp only [Option.map_some'] at hk'
      rw [← Option.some.inj hk']
      exact h.2.1 bk0 hbk
  · rw [lookupA_updateA_ne _ _ _ _ hkc] at hk'
    exact h.2.2 k bk hkc hk'

theorem slackAt_bumpUserTallies (sender : String) (b : Bot) (h : slackAt b) :
    slackAt (bumpUserTallies sender b) := by
  refine ⟨h.1, ?_, ?_⟩
  · intro bk hk
    have hk' : lookupA b.current_month
        (updateA b.current_month
          (fun bk => { bk with user_messages := bumpUser sender bk.user_messages })
          b.stats.monthly_stats) = some bk := hk
    rw [lookupA_updateA_self] at hk'
    cases hbk : lookupA b.current_month b.stats.monthly_stats with
    | none => rw [hbk] at hk'; exact absurd hk' (by simp)
    | some bk0 =>
      rw [hbk] at hk'
      simp only [Option.map_some'] at hk'
      rw [← Option.some.inj hk']
      exact h.2.1 bk0 hbk
  · intro k bk hkne hk
    have hkne' : k ≠ b.current_month := hkne
    have hk' : lookupA k
        (updateA b.current_month
          (fun bk => { bk with user_messages := bumpUser sender bk.user_messages })
          b.stats.monthly_stats) = some bk := hk
    rw [lookupA_updateA_ne _ _ _ _ hkne'] at hk'
    exact h.2.2 k bk hkne' hk'

theorem statsInv_handle_message (cmds : List (String × Handler))
    (now line : String) (b : Bot) (h : statsInv b.stats) :
    statsInv (handle_message cmds now line b).bot.stats := by
  have h0 : statsInv (check_month_change now b).stats :=
    statsInv_check_month_change now b h
  have hslack := slackAt_bumpMessages (check_month_change now b) h0
  by_cases hcolon : startsWithS ":" line = true
  · rcases hs : splitSpace2 (str line) with _ | ⟨a, _ | ⟨b2, _ | ⟨c2, _ | ⟨d2, tl4⟩⟩⟩⟩
    · unfold handle_message
      rw [if_pos hcolon, hs]
      exact h0
    · unfold handle_message
      rw [if_pos hcolon, hs]
      exact h0
    · unfold handle_message
      rw [if_pos hcolon, hs]
      exact h0
    · by_cases hping : b2 = str "PING"
      · subst hping
        rw [handle_message_server_ping cmds now line b a c2 hcolon hs]
        exact statsInv_of_slackAt _ hslack
      · by_cases hpriv : b2 = str "PRIVMSG"
        · subst hpriv
          by_cases ht : ofChars (privmsgTarget c2) = b.channel
          · rw [handle_message_privmsg_channel cmds now line b a c2 hcolon hs ht]
            unfold handle_channel_message
            rw [channelCmdLoop_bot]
            split
            · exact statsInv_bumpCommands_of_slackAt _
                (slackAt_bumpUserTallies _ _ hslack)
            · exact statsInv_of_slackAt _
                (slackAt_bumpUserTallies _ _ hslack)
          · rw [handle_message_privmsg_direct cmds now line b a c2 hcolon hs ht]
            unfold handle_private_message
            rw [privateCmdLoop_bot]
            split
            · exact statsInv_bumpCommands_of_slackAt _ hslack
            · exact statsInv_of_slackAt _ hslack
        · rw [handle_message_other_command cmds now line b a b2 c2 hcolon hs
            hping hpriv]
          exact statsInv_of_slackAt _ hslack
    · unfold handle_message
      rw [if_pos hcolon, hs]
      exact h0
  · unfold handle_message
    rw [if_neg hcolon]
    split
    · exact h0
    · exact h0

/-- `serverReplyChain` never touches the statistics. -/
theorem serverReplyChain_stats (rng : Nat → Nat) (rix : Nat) (b : Bot)
    (line : String) :
    (serverReplyChain rng rix b line).1.stats = b.stats := by
  unfold serverReplyChain
  split
  · rfl
  · split
    · rfl
    · split <;> rfl

theorem statsInv_processLine (cmds : List (String × Handler)) (rng : Nat → Nat)
    (now : String) (b : Bot) (rix : Nat) (line : String) (h : statsInv b.stats) :
    statsInv (processLine cmds rng now b rix line).bot.stats := by
  unfold processLine
  split
  · exact h
  · dsimp only
    split
    · exact statsInv_handle_message cmds now line b h
    · show statsInv (serverReplyChain rng rix
        (handle_message cmds now line b).bot line).1.stats
      rw [serverReplyChain_stats]
      exact statsInv_handle_message cmds now line b h

/-- The receive loop folded over a finite trace of inbound lines, each
processed under the wall-clock month current at that moment; an exception
escaping a line stops the loop, as it does in `run`. -/
def foldLines (cmds : List (String × Handler)) (rng : Nat → Nat) :
    Bot → Nat → List (String × String) → Bot
  | b, _, [] => b
  | b, rix, (now, line) :: rest =>
    let r := processLine cmds rng now b rix line
    match r.err with
    | some _ => r.bot
    | none => foldLines cmds rng r.bot r.rix rest

/-- C6: in every statistics state reachable from a freshly initialised bot
by processing any finite sequence of inbound lines (under any month
sequence, any registry and any randomness), `messages_received` is at
least `commands_processed`, both all-time and in every monthly bucket. -/
theorem c6_messages_bound_commands (cmds : List (String × Handler))
    (rng : Nat → Nat) (trace : List (String × String))
    (nickname username realname channel month : String) :
    statsInv (foldLines cmds rng
      (initBot nickname username realname channel month) 0 trace).stats := by
  have hinit : statsInv (initBot nickname username realname channel month).stats := by
    refine ⟨Nat.le_refl 0, ?_⟩
    intro k bk hk
    simp only [initBot, initStats, lookupA] at hk
    by_cases hkm : month = k
    · rw [if_pos hkm] at hk
      rw [← Option.some.inj hk]
      exact Nat.le_refl 0
    · rw [if_neg hkm] at hk
      exact absurd hk (by simp)
  have hstep : ∀ (b : Bot) (rix : Nat) (tr : List (String × String)),
      statsInv b.stats → statsInv (foldLines cmds rng b rix tr).stats := by
    intro b rix tr
    induction tr generalizing b rix with
    | nil => exact fun hb => hb
    | cons p rest ih =>
      intro hb
      obtain ⟨now, line⟩ := p
      simp only [foldLines]
      have hp := statsInv_processLine cmds rng now b rix line hb
      split
      · exact hp
      · exact ih _ _ hp
  exact hstep _ 0 trace hinit

/-- Witness for C6 at a concrete three-line trace: a channel command, a
direct message and a server PING, starting from the example bot. -/
theorem c6_messages_bound_commands_witness :
    statsInv (foldLines (commands exEnv) exEnv.rng
      (initBot "bot" "user" "real" "#chan" "09-2025") 0
      [("09-2025", ":alice!u@h PRIVMSG #chan :.ping"),
       ("09-2025", ":alice!u@h PRIVMSG bot :.time x"),
       ("10-2025", "PING :tok")]).stats :=
  c6_messages_bound_commands (commands exEnv) exEnv.rng
    [("09-2025", ":alice!u@h PRIVMSG #chan :.ping"),
     ("09-2025", ":alice!u@h PRIVMSG bot :.time x"),
     ("10-2025", "PING :tok")] "bot" "user" "real" "#chan" "09-2025"

theorem containsS_of_startsWithS (p s : String) (h : startsWithS p s = true) :
    containsS p s = true := by
  unfold startsWithS at h
  unfold containsS str
  cases hd : s.data with
  | nil =>
    rw [hd] at h
    cases hp : p.data with
    | nil => simp [containsSub, List.isEmpty]
    | cons c t =>
      rw [hp] at h
      simp [List.isPrefixOf] at h
  | cons c t =>
    rw [hd] at h
    simp [containsSub, h]

/-- A line that starts with `PING` starts with the character `P`, hence is
neither `:`-prefixed nor blank. -/
theorem ping_line_shape (line : String) (h : startsWithS "PING" line = true) :
    startsWithS ":" line = false ∧ pyBlank line = false := by
  unfold startsWithS at h ⊢
  unfold pyBlank
  cases hd : line.data with
  | nil =>
    rw [hd] at h
    rw [show ("PING".data = ['P', 'I', 'N', 'G']) from rfl] at h
    simp [List.isPrefixOf] at h
  | cons c t =>
    rw [hd] at h
    rw [show ("PING".data = ['P', 'I', 'N', 'G']) from rfl] at h
    have hc : c = 'P' := by
      simp [List.isPrefixOf] at h
      exact h.1.symm
    subst hc
    constructor
    · rw [show (":".data = [':']) from rfl]
      simp [List.isPrefixOf]
    · simp [str, hd]

/-- `handle_message` on a non-`:`-prefixed line that starts with `PING`
(lines 200-204): no statistics change beyond the month check, one PONG
built by replacing the verb in place. -/
theorem handle_message_raw_ping (cmds : List (String × Handler))
    (now line : String) (b : Bot)
    (hcolon : startsWithS ":" line = false)
    (hping : startsWithS "PING" line = true) :
    handle_message cmds now line b =
      ⟨check_month_change now b, [replacePingS line], none⟩ := by
  unfold handle_message
  rw [if_neg (by simp [hcolon]), if_pos hping]

theorem replacePing_id_of_not_contains (t : Str)
    (h : containsSub (str "PING") t = false) : replacePing t = t := by
  induction t using replacePing.induct with
  | case1 => rfl
  | case2 rest ih =>
    exfalso
    rw [show containsSub (str "PING") ('P' :: 'I' :: 'N' :: 'G' :: rest) = true
      from by simp [containsSub, str, List.isPrefixOf]] at h
    exact absurd h (by simp)
  | case3 c rest hg ih =>
    have h' : containsSub (str "PING") rest = false := by
      rw [show containsSub (str "PING") (c :: rest) =
        ((str "PING").isPrefixOf (c :: rest) || containsSub (str "PING") rest)
        from rfl] at h
      exact (Bool.or_eq_false_iff.mp h).2
    rw [replacePing.eq_3 c rest hg, ih h']

/-- Replacing the verb in a well-formed keepalive line preserves the
trailing token. -/
theorem replacePing_token (t : Str) (h : containsSub (str "PING") t = false) :
    replacePing (str "PING :" ++ t) = str "PONG :" ++ t := by
  rw [show str "PING :" ++ t = 'P' :: 'I' :: 'N' :: 'G' :: (' ' :: ':' :: t) from rfl]
  rw [replacePing.eq_2]
  have h1 : containsSub (str "PING") (':' :: t) = false := by
    rw [show containsSub (str "PING") (':' :: t) =
      ((str "PING").isPrefixOf (':' :: t) || containsSub (str "PING") t) from rfl]
    simpa [str, List.isPrefixOf] using h
  have h2 : containsSub (str "PING") (' ' :: ':' :: t) = false := by
    rw [show containsSub (str "PING") (' ' :: ':' :: t) =
      ((str "PING").isPrefixOf (' ' :: ':' :: t) ||
        containsSub (str "PING") (':' :: t)) from rfl]
    simpa [str, List.isPrefixOf] using h1
  rw [replacePing_id_of_not_contains (' ' :: ':' :: t) h2]
  rfl

/-- Counterexample for C2: the canonical keepalive line `PING :abc`
produces TWO identical outbound PONG replies within one processing step —
one from `handle_message` (line 203) and a second, duplicate one from the
receive loop's elif chain (lines 785-787) — not exactly one. -/
theorem c2_double_pong_counterexample :
    containsS "PING" "PING :abc" = true ∧
    (processLine (commands exEnv) exEnv.rng "09-2025" exBot 0 "PING :abc").out =
      ["PONG :abc", "PONG :abc"] :=
  ⟨rfl, rfl⟩

theorem breakOnChar_eq (sep : Char) (s a r : Str)
    (h : breakOnChar sep s = some (a, r)) : s = a ++ sep :: r := by
  induction s generalizing a r with
  | nil => exact absurd h (by simp [breakOnChar])
  | cons c t ih =>
    unfold breakOnChar at h
    by_cases hc : c = sep
    · rw [if_pos hc] at h
      obtain ⟨ha, hr⟩ := Prod.mk.inj (Option.some.inj h)
      rw [← ha, ← hr, hc]
      rfl
    · rw [if_neg hc] at h
      revert h
      cases hb : breakOnChar sep t with
      | none =>
        intro h
        exact absurd h (by simp)
      | some p =>
        obtain ⟨a', r'⟩ := p
        intro h
        have h' : some (c :: a', r') = some (a, r) := h
        obtain ⟨ha, hr⟩ := Prod.mk.inj (Option.some.inj h')
        rw [← ha, ← hr, List.cons_append, ← ih a' r' hb]

/-- A three-part `split(' ', 2)` recovers the line: two separating spaces
around the middle token. -/
theorem splitSpace2_eq (s p0 p1 p2 : Str)
    (h : splitSpace2 s = [p0, p1, p2]) :
    s = p0 ++ ' ' :: (p1 ++ ' ' :: p2) := by
  unfold splitSpace2 at h
  revert h
  cases hb : breakOnChar ' ' s with
  | none =>
    intro h
    simp at h
  | some p =>
    obtain ⟨a, r⟩ := p
    intro h
    dsimp only at h
    revert h
    cases hb2 : breakOnChar ' ' r with
    | none =>
      intro h
      have h' : [a, r] = [p0, p1, p2] := h
      simp at h'
    | some q =>
      obtain ⟨b2, r2⟩ := q
      intro h
      have h' : [a, b2, r2] = [p0, p1, p2] := h
      simp only [List.cons.injEq, and_true] at h'
      obtain ⟨h0, h1, h2⟩ := h'
      rw [breakOnChar_eq ' ' s a r hb, breakOnChar_eq ' ' r b2 r2 hb2, h0, h1, h2]

theorem containsSub_append_left (n x t : Str) (h : containsSub n t = true) :
    containsSub n (x ++ t) = true := by
  induction x with
  | nil => exact h
  | cons c x' ih =>
    rw [List.cons_append]
    rw [show containsSub n (c :: (x' ++ t)) =
      (n.isPrefixOf (c :: (x' ++ t)) || containsSub n (x' ++ t)) from rfl]
    rw [ih]
    simp

theorem isPrefixOf_self_append (l t : List Char) : l.isPrefixOf (l ++ t) = true := by
  induction l with
  | nil => cases t with
    | nil => rfl
    | cons c t' => rfl
  | cons c l' ih => simp [List.isPrefixOf, ih]

/-- A parsed line whose command token is `PING` contains `PING` as a
substring, so the elif chain fires on it too. -/
theorem containsS_ping_of_parsed (line : String) (p0 p2 : Str)
    (h : splitSpace2 (str line) = [p0, str "PING", p2]) :
    containsS "PING" line = true := by
  have he := splitSpace2_eq (str line) p0 (str "PING") p2 h
  show containsSub (str "PING") (str line) = true
  rw [he, show p0 ++ ' ' :: (str "PING" ++ ' ' :: p2) =
    (p0 ++ [' ']) ++ (str "PING" ++ ' ' :: p2) from by
      rw [List.append_assoc]
      rfl]
  apply containsSub_append_left
  rw [show containsSub (str "PING") (str "PING" ++ ' ' :: p2) =
    ((str "PING").isPrefixOf (str "PING" ++ ' ' :: p2) ||
      containsSub (str "PING") (str "ING" ++ ' ' :: p2)) from rfl]
  rw [isPrefixOf_self_append]
  simp

/-- A line that starts with `:` starts with a non-whitespace character and
so is not blank. -/
theorem colon_line_not_blank (line : String)
    (h : startsWithS ":" line = true) : pyBlank line = false := by
  unfold startsWithS at h
  unfold pyBlank
  cases hd : line.data with
  | nil =>
    rw [hd] at h
    rw [show (":".data = [':']) from rfl] at h
    simp [List.isPrefixOf] at h
  | cons c t =>
    rw [hd] at h
    rw [show (":".data = [':']) from rfl] at h
    have hc : c = ':' := by
      simp [List.isPrefixOf] at h
      exact h.symm
    subst hc
    simp [str, hd]

/-- C2 as amended: every keepalive line that contains neither `001` nor
`433` is answered TWICE within the same processing step, before the next
line is read — once by `handle_message` and once more by the receive
loop's elif chain sending `line.replace('PING','PONG')`. For a line that
starts with `PING`, both replies are the replaced line; for a
`:`-prefixed line whose command token is `PING`, the first reply is
`PONG :` plus the trailing text and the second is the replaced whole
line. The replacement preserves the trailing token. The original claim's
"exactly one outbound reply" is what fails. -/
theorem c2_keepalive_replied_twice (cmds : List (String × Handler))
    (rng : Nat → Nat) (rix : Nat) (now line : String) (b : Bot)
    (h001 : containsS "001" line = false)
    (h433 : containsS "433" line = false) :
    (startsWithS "PING" line = true →
      (processLine cmds rng now b rix line).out =
        [replacePingS line, replacePingS line] ∧
      (processLine cmds rng now b rix line).err = none) ∧
    (∀ p0 p2 : Str, startsWithS ":" line = true →
      splitSpace2 (str line) = [p0, str "PING", p2] →
      (processLine cmds rng now b rix line).out =
        ["PONG :" ++
          (if (str ":").isPrefixOf p2 then ofChars (p2.drop 1) else ofChars p2),
         replacePingS line] ∧
      (processLine cmds rng now b rix line).err = none) ∧
    (∀ t : Str, containsSub (str "PING") t = false →
      replacePing (str "PING :" ++ t) = str "PONG :" ++ t) := by
  refine ⟨?_, ?_, fun t ht => replacePing_token t ht⟩
  · intro hping
    obtain ⟨hcolon, hblank⟩ := ping_line_shape line hping
    have hm := handle_message_raw_ping cmds now line b hcolon hping
    have hchain : serverReplyChain rng rix (handle_message cmds now line b).bot line =
        ((handle_message cmds now line b).bot, rix, [replacePingS line]) := by
      unfold serverReplyChain
      rw [if_neg (by simp [h001]), if_neg (by simp [h433]),
        if_pos (containsS_of_startsWithS "PING" line hping)]
    constructor
    · unfold processLine
      rw [if_neg (by simp [hblank])]
      dsimp only
      rw [hm] at hchain
      dsimp only at hchain
      rw [hm]
      dsimp only
      rw [hchain]
      rfl
    · unfold processLine
      rw [if_neg (by simp [hblank])]
      dsimp only
      rw [hm]
  · intro p0 p2 hcolon hparts
    have hblank := colon_line_not_blank line hcolon
    have hm := handle_message_server_ping cmds now line b p0 p2 hcolon hparts
    have hchain : serverReplyChain rng rix (handle_message cmds now line b).bot line =
        ((handle_message cmds now line b).bot, rix, [replacePingS line]) := by
      unfold serverReplyChain
      rw [if_neg (by simp [h001]), if_neg (by simp [h433]),
        if_pos (containsS_ping_of_parsed line p0 p2 hparts)]
    constructor
    · unfold processLine
      rw [if_neg (by simp [hblank])]
      dsimp only
      rw [hm] at hchain
      dsimp only at hchain
      rw [hm]
      dsimp only
      rw [hchain]
      rfl
    · unfold processLine
      rw [if_neg (by simp [hblank])]
      dsimp only
      rw [hm]

/-- Witness for C2 as amended: `PING :abc` gets two identical PONG
replies; the parsed keepalive `:srv PING :abc` also gets two replies, the
parsed-form PONG and the chain's replaced whole line; the token is
carried over. -/
theorem c2_keepalive_replied_twice_witness :
    (processLine (commands exEnv) exEnv.rng "09-2025" exBot 0 "PING :abc").out =
      ["PONG :abc", "PONG :abc"] ∧
    (processLine (commands exEnv) exEnv.rng "09-2025" exBot 0 ":srv PING :abc").out =
      ["PONG :abc", ":srv PONG :abc"] ∧
    replacePing (str "PING :" ++ str "abc") = str "PONG :" ++ str "abc" := by
  have h1 := c2_keepalive_replied_twice (commands exEnv) exEnv.rng 0 "09-2025"
    "PING :abc" exBot rfl rfl
  have h2 := c2_keepalive_replied_twice (commands exEnv) exEnv.rng 0 "09-2025"
    ":srv PING :abc" exBot rfl rfl
  refine ⟨(h1.1 rfl).1, ?_, h1.2.2 (str "abc") rfl⟩
  have h3 := (h2.2.1 (str ":srv") (str ":abc") rfl (by decide)).1
  rw [h3]
  rfl

/-- C10: after `handle_message`, the receive loop's server-reply detection
is an if/elif chain of substring tests on the whole line: any non-blank
line containing `001` anywhere triggers exactly a JOIN of the configured
channel; a line containing `433` but not `001` appends a random numeric
suffix (1 to 999) to the nickname and re-sends NICK; a line containing
`PING` but neither `001` nor `433` gets one additional PONG built by
in-place verb replacement; and the chain's sends follow
`handle_message`'s sends within the same processing step. -/
theorem c10_server_reply_chain (cmds : List (String × Handler))
    (rng : Nat → Nat) (rix : Nat) (now line : String) (b : Bot) :
    (containsS "001" line = true →
      serverReplyChain rng rix b line = (b, rix, ["JOIN " ++ b.channel])) ∧
    (containsS "001" line = false → containsS "433" line = true →
      serverReplyChain rng rix b line =
        ({ b with nickname := b.nickname ++ toString (randint rng rix 1 999) },
          rix + 1,
          ["NICK " ++ (b.nickname ++ toString (randint rng rix 1 999))]) ∧
      1 ≤ randint rng rix 1 999 ∧ randint rng rix 1 999 ≤ 999) ∧
    (containsS "001" line = false → containsS "433" line = false →
      containsS "PING" line = true →
      serverReplyChain rng rix b line = (b, rix, [replacePingS line])) ∧
    (pyBlank line = false → (handle_message cmds now line b).err = none →
      (processLine cmds rng now b rix line).out =
        (handle_message cmds now line b).out ++
          (serverReplyChain rng rix (handle_message cmds now line b).bot line).2.2) := by
  refine ⟨?_, ?_, ?_, ?_⟩
  · intro h1
    unfold serverReplyChain
    rw [if_pos h1]
  · intro h1 h4
    constructor
    · unfold serverReplyChain
      rw [if_neg (by simp [h1]), if_pos h4]
    · exact randint_mem rng rix 1 999 (by omega)
  · intro h1 h4 hp
    unfold serverReplyChain
    rw [if_neg (by simp [h1]), if_neg (by simp [h4]), if_pos hp]
  · intro hblank herr
    unfold processLine
    rw [if_neg (by simp [hblank])]
    dsimp only
    split
    · rename_i e heq
      rw [herr] at heq
      exact absurd heq (by simp)
    · rfl

/-- Witness for C10 at three concrete lines: a welcome reply inside a chat
body still JOINs, a nick-collision reply mutates the nickname, and a
PING-bearing line gets the chain's extra PONG after handle_message's. -/
theorem c10_server_reply_chain_witness :
    serverReplyChain exEnv.rng 0 exBot ":x!u PRIVMSG #chan :ask 001 me" =
      (exBot, 0, ["JOIN #chan"]) ∧
    serverReplyChain exEnv.rng 0 exBot ":srv 433 * bot :in use" =
      ({ exBot with nickname := "bot1" }, 1, ["NICK bot1"]) ∧
    (processLine (commands exEnv) exEnv.rng "09-2025" exBot 0 "PING :tok").out =
      (handle_message (commands exEnv) "09-2025" "PING :tok" exBot).out ++
        ["PONG :tok"] := by
  have h1 := (c10_server_reply_chain (commands exEnv) exEnv.rng 0 "09-2025"
    ":x!u PRIVMSG #chan :ask 001 me" exBot).1 rfl
  have h2 := ((c10_server_reply_chain (commands exEnv) exEnv.rng 0 "09-2025"
    ":srv 433 * bot :in use" exBot).2.1 rfl rfl).1
  have h4 := (c10_server_reply_chain (commands exEnv) exEnv.rng 0 "09-2025"
    "PING :tok" exBot).2.2.2 rfl rfl
  exact ⟨h1, h2, by rw [h4]; rfl⟩

/-- A handler that raises, exercising the dispatcher's error boundary. -/
def boomHandler : Handler := fun _ _ _ => Except.error "boom"

/-- Counterexample for C3: the dispatcher has no try/except around the
handler call (line 227), so an error raised by a handler escapes the
dispatch loop (`err = some "boom"`), reaches the receive loop, and is
caught only by `run`'s top-level except, which ends the session through
`cleanup` (the QUIT line) — it is not converted to "no reply". -/
theorem c3_handler_error_escapes_counterexample :
    (channelCmdLoop exBot "alice" ".boom now" [(".boom", boomHandler)]).err =
      some "boom" ∧
    (run [(".boom", boomHandler)] exEnv.rng exBot true
      [NetEvent.recv "09-2025" ":alice!u@h PRIVMSG #chan :.boom now\r\n"]).ended =
      RunEnd.loopError ∧
    (run [(".boom", boomHandler)] exEnv.rng exBot true
      [NetEvent.recv "09-2025" ":alice!u@h PRIVMSG #chan :.boom now\r\n"]).out.getLast? =
      some quitLine :=
  ⟨rfl, rfl, rfl⟩

/-- C3 as amended: a handler error is NOT caught at the dispatcher
boundary — whichever loop dispatched it returns the error, which unwinds
to the receive loop and ends the session — while every handler in the
shipped registry is total (each catches its own exceptions and returns a
reply), so in the shipped configuration no invocation actually raises. -/
theorem c3_handler_errors_propagate (cmds : List (String × Handler)) (b : Bot)
    (sender message : String) (c : String) (f : Handler) (e : String)
    (hf : cmds.find? (fun en => startsWithS en.1 message) = some (c, f))
    (he : f (bumpCommands b) sender message = Except.error e) :
    (channelCmdLoop b sender message cmds).err = some e ∧
    (privateCmdLoop b sender message cmds).err = some e ∧
    (∀ (env : Env) (b' : Bot) (s m : String) (p : String × Handler),
      p ∈ commands env → ∃ v, p.2 b' s m = Except.ok v) := by
  refine ⟨?_, ?_, ?_⟩
  · rw [channelCmdLoop_match b sender message cmds c f hf, he]
  · rw [privateCmdLoop_match b sender message cmds c f hf, he]
  · intro env b' s m p hp
    simp only [commands, List.mem_cons, List.mem_singleton] at hp
    rcases hp with h | h | h | h | h | h | h | h | h | h | h
    · rw [h]; exact ⟨_, rfl⟩
    · rw [h]; exact ⟨_, rfl⟩
    · rw [h]; exact ⟨_, rfl⟩
    · rw [h]; exact ⟨_, rfl⟩
    · rw [h]; exact ⟨_, rfl⟩
    · rw [h]; exact ⟨_, rfl⟩
    · rw [h]; exact ⟨_, rfl⟩
    · rw [h]; exact ⟨_, rfl⟩
    · rw [h]; exact ⟨_, rfl⟩
    · rw [h]
      show ∃ v, cmd_topusers b' s m = Except.ok v
      unfold cmd_topusers
      dsimp only
      split <;> exact ⟨_, rfl⟩
    · exact absurd h (by simp)

/-- Witness for C3 as amended: the erroring handler's error is what both
loops return. -/
theorem c3_handler_errors_propagate_witness :
    (channelCmdLoop exBot "alice" ".boom now" [(".boom", boomHandler)]).err =
      some "boom" ∧
    (privateCmdLoop exBot "alice" ".boom now" [(".boom", boomHandler)]).err =
      some "boom" := by
  have h := c3_handler_errors_propagate [(".boom", boomHandler)] exBot "alice"
    ".boom now" ".boom" boomHandler "boom" rfl rfl
  exact ⟨h.1, h.2.1⟩

theorem getLast?_append_right {α : Type} (l1 l2 : List α) (h : l2 ≠ []) :
    (l1 ++ l2).getLast? = l2.getLast? := by
  induction l1 with
  | nil => rfl
  | cons a t ih =>
    rw [List.cons_append]
    cases hq : t ++ l2 with
    | nil => exact absurd (List.append_eq_nil.mp hq).2 h
    | cons x xs =>
      rw [List.getLast?_cons_cons, ← hq]
      exact ih

/-- Whenever the receive loop ends because of a transport failure, a peer
close or an escaped processing exception, the last line it sent is the
cleanup QUIT. -/
theorem runLoop_ends_with_quit (cmds : List (String × Handler))
    (rng : Nat → Nat) :
    ∀ (events : List NetEvent) (b : Bot) (rix : Nat) (buf : Str),
      ((runLoop cmds rng b rix buf events).2.2 = RunEnd.recvError ∨
       (runLoop cmds rng b rix buf events).2.2 = RunEnd.peerClosed ∨
       (runLoop cmds rng b rix buf events).2.2 = RunEnd.loopError) →
      (runLoop cmds rng b rix buf events).2.1.getLast? = some quitLine := by
  intro events
  induction events with
  | nil =>
    intro b rix buf h
    rcases h with h | h | h <;> simp [runLoop] at h
  | cons ev rest ih =>
    intro b rix buf h
    cases ev with
    | err => rfl
    | recv month data =>
      simp only [runLoop] at h ⊢
      by_cases hd : data = ""
      · rw [if_pos hd]
        rfl
      · rw [if_neg hd] at h ⊢
        set P := processLines cmds rng month b rix
          ((frame (buf ++ str data)).1.map ofChars) with hP
        cases herr : P.err with
        | some e =>
          show (P.out ++ [quitLine]).getLast? = some quitLine
          exact getLast?_append_right _ _ (by simp)
        | none =>
          rw [herr] at h
          have h' : (runLoop cmds rng P.bot P.rix
                (frame (buf ++ str data)).2 rest).2.2 = RunEnd.recvError ∨
              (runLoop cmds rng P.bot P.rix
                (frame (buf ++ str data)).2 rest).2.2 = RunEnd.peerClosed ∨
              (runLoop cmds rng P.bot P.rix
                (frame (buf ++ str data)).2 rest).2.2 = RunEnd.loopError := h
          have hq := ih P.bot P.rix (frame (buf ++ str data)).2 h'
          have hne : (runLoop cmds rng P.bot P.rix
              (frame (buf ++ str data)).2 rest).2.1 ≠ [] := by
            intro hnil
            rw [hnil] at hq
            simp at hq
          show (P.out ++ (runLoop cmds rng P.bot P.rix
            (frame (buf ++ str data)).2 rest).2.1).getLast? = some quitLine
          rw [getLast?_append_right _ _ hne]
          exact hq

/-- Counterexample for C1: with the default configuration, in which
auto-reconnect is enabled, a read failure while the session is running
ends `run` — the loop breaks, `cleanup` sends QUIT, and `run` returns
after its single `connect()` call. No delay is waited and no second
connection is attempted: `config.AUTO_RECONNECT` and
`config.RECONNECT_DELAY` are read in src/config.py but never used by
src/pyircbot.py, and `main()` calls `run()` once, so the process
terminates. -/
theorem c1_no_reconnect_counterexample :
    defaultConfig.AUTO_RECONNECT = true ∧
    (run (commands exEnv) exEnv.rng exBot true [NetEvent.err]).ended =
      RunEnd.recvError ∧
    (run (commands exEnv) exEnv.rng exBot true [NetEvent.err]).connects = 1 ∧
    ¬ 2 ≤ (run (commands exEnv) exEnv.rng exBot true [NetEvent.err]).connects ∧
    (run (commands exEnv) exEnv.rng exBot true [NetEvent.err]).out =
      ["NICK bot", "USER user 0 * :real", quitLine] :=
  ⟨rfl, rfl, rfl, by decide, rfl⟩

/-- C1 as amended: every execution of `run` makes exactly one `connect()`
call, and whenever the session ends through a transport failure (read
error or peer close) or an escaped processing error, `run` sends the QUIT
farewell as its last line and returns — there is no `Reconnecting` state,
no delay and no further connection attempt, whatever the configuration
says. -/
theorem c1_transport_failure_terminates_run (cmds : List (String × Handler))
    (rng : Nat → Nat) (b0 : Bot) (connectOk : Bool) (events : List NetEvent) :
    (run cmds rng b0 connectOk events).connects = 1 ∧
    ((run cmds rng b0 connectOk events).ended = RunEnd.recvError ∨
     (run cmds rng b0 connectOk events).ended = RunEnd.peerClosed ∨
     (run cmds rng b0 connectOk events).ended = RunEnd.loopError →
      (run cmds rng b0 connectOk events).out.getLast? = some quitLine) := by
  cases connectOk with
  | false =>
    refine ⟨rfl, ?_⟩
    intro h
    rcases h with h | h | h <;> simp [run] at h
  | true =>
    refine ⟨rfl, ?_⟩
    intro h
    have hrun : run cmds rng b0 true events =
        ⟨(runLoop cmds rng b0 0 [] events).1,
          ("NICK " ++ b0.nickname) ::
            ("USER " ++ b0.username ++ " 0 * :" ++ b0.realname) ::
            (runLoop cmds rng b0 0 [] events).2.1,
          1, (runLoop cmds rng b0 0 [] events).2.2⟩ := rfl
    rw [hrun] at h ⊢
    have hq := runLoop_ends_with_quit cmds rng events b0 0 [] h
    have hne : (runLoop cmds rng b0 0 [] events).2.1 ≠ [] := by
      intro hnil
      rw [hnil] at hq
      simp at hq
    show (["NICK " ++ b0.nickname,
        "USER " ++ b0.username ++ " 0 * :" ++ b0.realname] ++
      (runLoop cmds rng b0 0 [] events).2.1).getLast? = some quitLine
    rw [getLast?_append_right _ _ hne]
    exact hq

/-- Witness for C1 as amended, at a trace whose second event is a read
failure: one connect, and the QUIT farewell closes the output. -/
theorem c1_transport_failure_terminates_run_witness :
    (run (commands exEnv) exEnv.rng exBot true
      [NetEvent.recv "09-2025" "PING :a\r\n", NetEvent.err]).connects = 1 ∧
    (run (commands exEnv) exEnv.rng exBot true
      [NetEvent.recv "09-2025" "PING :a\r\n", NetEvent.err]).out.getLast? =
      some quitLine := by
  have h := c1_transport_failure_terminates_run (commands exEnv) exEnv.rng exBot
    true [NetEvent.recv "09-2025" "PING :a\r\n", NetEvent.err]
  exact ⟨h.1, h.2 (Or.inl rfl)⟩

/-- Counterexample for C8: `cmd_dice` never reads the configuration — its
bounds are the hard-coded literals 10 and 100 of line 283. With
`MAX_DICE_COUNT` configured to 5, the roll `.dice 7d6` exceeds the
configured maximum dice count, yet the handler does not return the
size-limit refusal: it performs 7 draws and reports the rolls. -/
theorem c8_configured_maxima_ignored_counterexample :
    ({ defaultConfig with MAX_DICE_COUNT := 5 } : Config).MAX_DICE_COUNT < 7 ∧
    diceSearch (str ".dice 7d6") = some (7, 6) ∧
    (cmd_dice (fun _ => 0) "al" ".dice 7d6").1 ≠
      "Dice too large! Max 10 dice, 100 sides." ∧
    (cmd_dice (fun _ => 0) "al" ".dice 7d6").2 = 7 := by
  refine ⟨by decide, by decide, by decide, rfl⟩

/-- C8 as amended: the dice handler's size limits are the hard-coded
literals 10 and 100 (which coincide with the configuration defaults but
ignore the configured values): a parsed `NdS` with `N > 10` or `S > 100`
returns the size-limit refusal and performs zero random draws, and the
bare `.dice` form performs exactly one draw whose value lies in `[1, 6]`. -/
theorem c8_dice_bounds (rng : Nat → Nat) (sender message : String) (n s : Nat)
    (hparse : diceSearch (str message) = some (n, s))
    (hover : n > 10 ∨ s > 100) :
    cmd_dice rng sender message = ("Dice too large! Max 10 dice, 100 sides.", 0) ∧
    (cmd_dice rng sender ".dice").2 = 1 ∧
    1 ≤ randint rng 0 1 6 ∧ randint rng 0 1 6 ≤ 6 ∧
    (cmd_dice rng sender ".dice").1 =
      sender ++ " rolled: " ++ toString (randint rng 0 1 6) := by
  have hbare : message ≠ ".dice" := by
    intro hb
    rw [hb, show diceSearch (str ".dice") = none from by decide] at hparse
    exact absurd hparse (by simp)
  have hmem := randint_mem rng 0 1 6 (by omega)
  refine ⟨?_, rfl, hmem.1, hmem.2, rfl⟩
  unfold cmd_dice
  rw [if_neg hbare, hparse]
  have hcond : (decide (n > 10) || decide (s > 100)) = true := by
    rcases hover with h | h <;> simp [h]
  simp only [hcond, if_true, Bool.or_eq_true, decide_eq_true_eq]

/-- Witness for C8 as amended, at `.dice 11d6` with a concrete stream:
refusal with zero draws, and the bare form draws once, rolling 1. -/
theorem c8_dice_bounds_witness :
    cmd_dice (fun _ => 0) "al" ".dice 11d6" =
      ("Dice too large! Max 10 dice, 100 sides.", 0) ∧
    cmd_dice (fun _ => 0) "al" ".dice" = ("al rolled: 1", 1) := by
  have h := c8_dice_bounds (fun _ => 0) "al" ".dice 11d6" 11 6 (by decide)
    (Or.inl (by decide))
  exact ⟨h.1, rfl⟩

end PyIRC
